import Mathlib

/-!
Verification of the PFS ledger engine (schema-driven record codec, CSV
persistence read path, and the referential-integrity mutation operations)
against its natural-language specification.

The TypeScript sources are shallowly embedded: pure functions become Lean
functions over `List`/`String`/`Int`; JS IEEE-754 doubles are modelled as
exact finite decimals `m / 10^k` (every number this codec handles is an
integer minor-unit amount or a short decimal read from a CSV cell, all of
which doubles represent exactly in the ranges in play); `Result<T>` becomes
an explicit sum; `new Date()` values are passed in as explicit `now`/`today`
arguments.
-/

namespace PFS

/-! ## Decimal digits and number rendering (JS `String(number)` core) -/

/-- The character for a decimal digit `d < 10`. -/
def digitChar (d : Nat) : Char := Char.ofNat (48 + d)

/-- Numeric value of a digit character (`'0'` ↦ 0, …, `'9'` ↦ 9). -/
def charVal (c : Char) : Nat := c.toNat - 48

/-- Value of a big-endian digit-character list (the fold JS `Number` performs
on the digits of a decimal literal). -/
def digitsVal (l : List Char) : Nat := l.foldl (fun n c => 10 * n + charVal c) 0

/-- Big-endian decimal digits of `n`, fuel-bounded so that the recursion is
structural (kernel-reducible).  Fuel `n + 1` always suffices because every
step divides `n` by 10. -/
def natToCharsAux : Nat → Nat → List Char
  | 0, _ => []
  | fuel + 1, n =>
    if n < 10 then [digitChar n]
    else natToCharsAux fuel (n / 10) ++ [digitChar (n % 10)]

/-- Decimal rendering of a natural number, as JS renders integral doubles. -/
def natToChars (n : Nat) : List Char := natToCharsAux (n + 1) n

/-- Decimal rendering of an integer (sign plus digits), as JS `String(int)`. -/
def intChars (i : Int) : List Char :=
  if i < 0 then '-' :: natToChars i.natAbs else natToChars i.natAbs

/-- JS `String(i)` for an integer-valued number. -/
def intToString (i : Int) : String := String.mk (intChars i)

/-! ## Exact decimals: the JS numbers this program handles

A `Dec` is the exact value `m / 10^k`, kept in canonical form (`k = 0`, or
`m` not divisible by 10) so that equality of `Dec`s coincides with equality
of the doubles they stand for. -/

structure Dec where
  m : Int
  k : Nat
deriving DecidableEq

/-- Strip trailing decimal zeros: canonicalize `m / 10^k`.  Fuel-bounded
(`k` steps always suffice; each step decrements `k`). -/
def decNormAux : Nat → Int → Nat → Int × Nat
  | 0, m, k => (m, k)
  | fuel + 1, m, k =>
    if k = 0 then (m, k)
    else if m % 10 = 0 then decNormAux fuel (m / 10) (k - 1)
    else (m, k)

/-- The canonical `Dec` with value `m / 10^k`. -/
def decNorm (m : Int) (k : Nat) : Dec :=
  let p := decNormAux k m k
  ⟨p.1, p.2⟩

/-! ## Parsing decimal numbers (JS `Number(string)` on decimal literals)

JS `Number` also accepts exponents, hex, infinities and surrounding
whitespace; the codec only ever produces plain `[-]digits[.digits]` strings,
which is the fragment modelled here.  Inputs outside the fragment parse to
`none` (JS `NaN`), which every caller in the source degrades to `0`. -/

/-- Parse an unsigned decimal literal into `(scaled, k)` with value
`scaled / 10^k`. -/
def parseUnsigned (l : List Char) : Option (Nat × Nat) :=
  let ip := l.takeWhile Char.isDigit
  match l.dropWhile Char.isDigit with
  | [] => if ip.isEmpty then none else some (digitsVal ip, 0)
  | '.' :: frac =>
    if ip.isEmpty && frac.isEmpty then none
    else if frac.all Char.isDigit then
      some (digitsVal ip * 10 ^ frac.length + digitsVal frac, frac.length)
    else none
  | _ => none

/-- Parse a signed decimal literal into `(scaled, k)` with value
`scaled / 10^k`. -/
def parseDec (l : List Char) : Option (Int × Nat) :=
  if l.head? = some '-' then
    (parseUnsigned l.tail).map (fun p => (-(p.1 : Int), p.2))
  else
    (parseUnsigned l).map (fun p => ((p.1 : Int), p.2))

/-- JS `Math.round(m / 10^k * 10^p)`, computed exactly over integers.
When `k ≤ p` the product is the integer `m * 10^(p-k)` and rounding is the
identity; otherwise `Math.round(a / b) = ⌊a/b + 1/2⌋ = ⌊(2a + b) / (2b)⌋`
(round to nearest, ties toward `+∞`), and `Int.ediv` is `⌊·⌋`-division for
the positive divisor `2 * 10^(k-p)`. -/
def roundScaled (m : Int) (k p : Nat) : Int :=
  if k ≤ p then m * 10 ^ (p - k)
  else Int.ediv (2 * m + 10 ^ (k - p)) (2 * 10 ^ (k - p))

/-- ECMA `toFixed`: round a nonnegative `m / 10^k` to the nearest integer,
ties toward the larger value. -/
def decRoundNonneg (m : Nat) (k : Nat) : Nat :=
  if k = 0 then m else (2 * m + 10 ^ k) / (2 * 10 ^ k)

/-- Digits of a nonnegative scaled value `m` rendered with `k` fractional
digits: `intpart.fracpart`, the fractional part zero-padded to width `k`. -/
def fixedChars (m : Nat) (k : Nat) : List Char :=
  natToChars (m / 10 ^ k) ++ '.' ::
    (List.replicate (k - (natToChars (m % 10 ^ k)).length) '0' ++
      natToChars (m % 10 ^ k))

/-- JS `String(number)` for a canonical `Dec`: integral values render with no
decimal point; other finite decimals render as their exact (shortest, since
canonical) decimal expansion, which is what JS prints for the doubles this
program produces. -/
def jsNumChars (d : Dec) : List Char :=
  if d.k = 0 then intChars d.m
  else if d.m < 0 then '-' :: fixedChars d.m.natAbs d.k
  else fixedChars d.m.natAbs d.k

/-- JS `String(number)` as a `String`. -/
def jsNumToString (d : Dec) : String := String.mk (jsNumChars d)

/-! ## Money conversion (src/lib/src/schema.ts) -/

/--
`toIntegerAmount(value, precision)`: convert a decimal string from CSV to an
integer amount.  `""` and unparseable input (JS `NaN`) degrade to `0`;
otherwise `Math.round(num * 10^precision)` (see `roundScaled`).
-/
def toIntegerAmount (value : String) (precision : Nat) : Int :=
  if value = "" then 0
  else
    match parseDec value.data with
    | none => 0
    | some (m, k) => roundScaled m k precision

/--
`fromIntegerAmount(value, precision)`: convert a number to a decimal string
for CSV.  `precision = 0` renders `String(value)`; otherwise
`(value / 10^precision).toFixed(precision)`: per ECMA, `toFixed(p)` picks the
integer `n` closest to `x * 10^p` (ties toward the larger `n`) — here
`x * 10^p = value` again, so `n` is `value` rounded to an integer (exactly
`value` for the integer minor-unit amounts the schemas store) — and renders
`n` with `p` fractional digits, a negative `x` as sign-then-magnitude.
-/
def fromIntegerAmount (value : Dec) (precision : Nat) : String :=
  if precision = 0 then jsNumToString value
  else if value.m < 0 then
    String.mk ('-' :: fixedChars (decRoundNonneg value.m.natAbs value.k) precision)
  else
    String.mk (fixedChars (decRoundNonneg value.m.natAbs value.k) precision)

/-! ## Schemas (src/lib/src/schema.ts) -/

inductive FieldType where
  | string
  | number
  | boolean
  | money
deriving DecidableEq

structure FieldDef where
  name : String
  type : FieldType
deriving DecidableEq

/-- Maps currency codes to decimal precision. -/
def CURRENCY_PRECISION : List (String × Nat) :=
  [("USD", 2), ("EUR", 2), ("GBP", 2), ("CAD", 2), ("AUD", 2), ("CHF", 2),
   ("CNY", 2), ("JPY", 0), ("KRW", 0), ("BTC", 8), ("ETH", 8), ("SOL", 8)]

/-- Get precision for a currency code (defaults to 2). -/
def getPrecision (currency : String) : Nat :=
  match CURRENCY_PRECISION.find? (fun p => p.1 == currency) with
  | some p => p.2
  | none => 2

def ACCOUNT_SCHEMA : List FieldDef :=
  [⟨"id", .string⟩, ⟨"name", .string⟩, ⟨"type", .string⟩,
   ⟨"currency", .string⟩, ⟨"institution", .string⟩, ⟨"balance", .money⟩,
   ⟨"hidden", .boolean⟩, ⟨"reconciled", .string⟩, ⟨"createdAt", .string⟩]

def TRANSACTION_SCHEMA : List FieldDef :=
  [⟨"id", .string⟩, ⟨"type", .string⟩, ⟨"accountId", .string⟩,
   ⟨"date", .string⟩, ⟨"categoryId", .string⟩, ⟨"description", .string⟩,
   ⟨"payee", .string⟩, ⟨"transferPairId", .string⟩, ⟨"amount", .money⟩,
   ⟨"notes", .string⟩, ⟨"source", .string⟩, ⟨"createdAt", .string⟩]

def CATEGORY_SCHEMA : List FieldDef :=
  [⟨"id", .string⟩, ⟨"name", .string⟩, ⟨"group", .string⟩,
   ⟨"assigned", .money⟩, ⟨"hidden", .boolean⟩]

/-! ## Records

A raw CSV record (`Record<string, string>`) and a typed record
(`Record<string, unknown>` holding the four field kinds) are association
lists built by sequential JS property assignment, so a duplicate key keeps
the last assignment — reads take the last matching binding. -/

inductive Value where
  | str (s : String)
  | num (d : Dec)
  | bool (b : Bool)
  | money (i : Int)
deriving DecidableEq

/-- JS property read: last assignment wins. -/
def objGet {β : Type} (r : List (String × β)) (k : String) : Option β :=
  ((r.filter (fun p => p.1 == k)).getLast?).map (fun p => p.2)

/-- JS `String(value)` coercion for the values a typed record holds. -/
def jsToString (v : Value) : String :=
  match v with
  | .str s => s
  | .num d => jsNumToString d
  | .bool b => cond b "true" "false"
  | .money i => jsNumToString ⟨i, 0⟩

/-- JS `Number(value)` coercion for the values a typed record holds.
A non-numeric string coerces to `NaN`, degraded here to `0`; that branch is
unexercised (a representable record holds a money value in a money field). -/
def jsToNumber (v : Value) : Dec :=
  match v with
  | .num d => d
  | .money i => ⟨i, 0⟩
  | .bool b => ⟨cond b 1 0, 0⟩
  | .str s =>
    match parseDec s.data with
    | some (m, k) => decNorm m k
    | none => ⟨0, 0⟩

/--
`deserialize(raw, schema, precision)`: convert a raw string record into a
typed record.  Missing columns are filled with defaults (schema migration);
extra columns in `raw` are ignored; money fields go through
`toIntegerAmount`; deserialization never fails.
-/
def deserialize (raw : List (String × String)) (schema : List FieldDef)
    (precision : Nat := 2) : List (String × Value) :=
  schema.map (fun field =>
    (field.name,
      match field.type, objGet raw field.name with
      | .string, none => .str ""
      | .string, some v => .str v
      | .number, none => .num ⟨0, 0⟩
      | .number, some v =>
        if v = "" then .num ⟨0, 0⟩
        else
          .num (match parseDec v.data with
                | some (m, k) => decNorm m k
                | none => ⟨0, 0⟩)
      | .boolean, none => .bool false
      | .boolean, some v => .bool (v == "true")
      | .money, none => .money 0
      | .money, some v => .money (toIntegerAmount v precision)))

/--
`serialize(record, schema, precision)`: convert a typed record into a string
record for CSV writing; always emits every schema column in order.
-/
def serialize (record : List (String × Value)) (schema : List FieldDef)
    (precision : Nat := 2) : List (String × String) :=
  schema.map (fun field =>
    (field.name,
      match field.type with
      | .string =>
        match objGet record field.name with
        | none => ""
        | some v => jsToString v
      | .number =>
        match objGet record field.name with
        | none => "0"
        | some v => jsToString v
      | .boolean =>
        match objGet record field.name with
        | none => "false"
        | some v => jsToString v
      | .money =>
        fromIntegerAmount
          (match objGet record field.name with
           | none => ⟨0, 0⟩
           | some v => jsToNumber v) precision))

/-- A value inhabiting the field kind the schema declares. -/
def valueHasType : Value → FieldType → Bool
  | .str _, .string => true
  | .num _, .number => true
  | .bool _, .boolean => true
  | .money _, .money => true
  | _, _ => false

/-- A representable record for a schema: exactly the schema's columns, in
schema order, each holding a value of the declared kind (money fields hold
integer minor units by construction of `Value.money`). -/
def representableB : List FieldDef → List (String × Value) → Bool
  | [], [] => true
  | f :: fs, p :: ps =>
    p.1 == f.name && valueHasType p.2 f.type && representableB fs ps
  | _, _ => false

/-! ## CSV parsing (src/lib/src/csv.ts)

The parser is a char-indexed loop in the source; here it walks the char
list.  Loops carry explicit fuel so the definitions are structural
(kernel-reducible); every loop iteration consumes at least one character, so
fuel `length + 1` is always enough and the fuel case `0` is unreachable. -/

/-- A character that ends an unquoted field (`,`, `\n`, `\r`). -/
def isFieldEnd (c : Char) : Bool := c == ',' || c == '\n' || c == '\r'

/-- `parseQuotedField`: scan a quoted field after its opening quote.
`""` is an escaped quote; an unterminated quote returns what was read. -/
def parseQuotedAux : List Char → List Char → List Char × List Char
  | [], acc => (acc.reverse, [])
  | '"' :: '"' :: rest, acc => parseQuotedAux rest ('"' :: acc)
  | '"' :: rest, acc => (acc.reverse, rest)
  | c :: rest, acc => parseQuotedAux rest (c :: acc)

/-- Parse one field: a quoted field if it starts with `"`, else the run of
characters up to the next delimiter. -/
def parseFieldStep (l : List Char) : String × List Char :=
  match l with
  | '"' :: rest =>
    let p := parseQuotedAux rest []
    (String.mk p.1, p.2)
  | _ => (String.mk (l.takeWhile (fun c => !isFieldEnd c)),
          l.dropWhile (fun c => !isFieldEnd c))

/-- `parseRow`: the field loop of a single row.  After a field, a comma
continues the loop (pushing an extra empty field when the comma sits at the
end of the line or file — the source then also lets the next iteration run,
reproducing its behavior exactly); anything else ends the row, consuming one
`\r` and one `\n`. -/
def parseRowAux : Nat → List Char → List String → List String × List Char
  | 0, l, acc => (acc.reverse, l)
  | fuel + 1, l, acc =>
    match l with
    | [] => (acc.reverse, [])
    | _ =>
      let p := parseFieldStep l
      match p.2 with
      | ',' :: rest2 =>
        if rest2.isEmpty || rest2.head? = some '\n' || rest2.head? = some '\r'
        then parseRowAux fuel rest2 ("" :: p.1 :: acc)
        else parseRowAux fuel rest2 (p.1 :: acc)
      | rest =>
        let rest2 := if rest.head? = some '\r' then rest.tail else rest
        let rest3 := if rest2.head? = some '\n' then rest2.tail else rest2
        ((p.1 :: acc).reverse, rest3)

/-- Parse a single row starting at the given text. -/
def parseRow (l : List Char) : List String × List Char :=
  parseRowAux (l.length + 1) l []

/-- `parseRows`: parse rows until the text is exhausted, skipping a trailing
row that is a lone empty field at end of input. -/
def parseRowsAux : Nat → List Char → List (List String) → List (List String)
  | 0, _, acc => acc.reverse
  | fuel + 1, l, acc =>
    if l.isEmpty then acc.reverse
    else
      let p := parseRow l
      if p.2.isEmpty && p.1 == [""] then acc.reverse
      else parseRowsAux fuel p.2 (p.1 :: acc)

/-- The rows of a CSV text, after stripping a leading BOM. -/
def csvRows (input : String) : List (List String) :=
  let text :=
    if input.data.head? = some (Char.ofNat 0xfeff) then input.data.tail
    else input.data
  parseRowsAux (text.length + 1) text []

/-- Build a record object from the header row and one data row
(`record[headers[i]] = row[i] ?? ''`). -/
def buildRecord (headers row : List String) : List (String × String) :=
  (List.range headers.length).map (fun i => (headers.getD i "", row.getD i ""))

/-- `parseCSV`: header row plus one record per remaining row; an empty text
(no rows) yields no records. -/
def parseCSV (input : String) : List (List (String × String)) :=
  match csvRows input with
  | [] => []
  | headers :: rest => rest.map (fun row => buildRecord headers row)

/-! ## CSV file read (src/lib/src/storage.ts, src/lib/src/store.ts) -/

structure ReadCSVOptions where
  /-- Fixed precision for all money fields (default 2). -/
  precision : Option Nat := none
  /-- Per-record precision — takes precedence over `precision`. -/
  getPrecisionForRecord : Option (List (String × String) → Nat) := none

/-- `readCSVFile(filePath, schema, options)`: read a CSV text and
deserialize records using the given schema.  `content` is the text
`fs.readFile` returned. -/
def readCSVFile (content : String) (schema : List FieldDef)
    (options : ReadCSVOptions) : List (List (String × Value)) :=
  let rawRecords := parseCSV content
  let defaultPrecision := options.precision.getD 2
  rawRecords.map (fun raw =>
    let precision :=
      match options.getPrecisionForRecord with
      | some f => f raw
      | none => defaultPrecision
    deserialize raw schema precision)

/-- `safeReadCSV(filePath, schema, options)` from the store module: `file`
is the filesystem state at the path — `none` when `access(path)` rejects
(missing file).  The source wraps the read in try/catch and returns `[]` on
failure, so a missing file yields `[]` and never a thrown error. -/
def safeReadCSV (file : Option String) (schema : List FieldDef)
    (options : ReadCSVOptions) : List (List (String × Value)) :=
  match file with
  | none => []
  | some content => readCSVFile content schema options

/-! ## Domain records (src/lib/src/types.ts)

Enumerated kinds (`AccountType`, `TransactionType`) are strings in the flat
files and are validated by membership in the closed sets below, so they are
modelled as `String`; amounts are integer minor units (`Int`). -/

structure Account where
  id : String
  name : String
  type : String
  currency : String
  institution : String
  balance : Int
  hidden : Bool
  reconciled : String
  createdAt : String
deriving DecidableEq

structure Transaction where
  id : String
  type : String
  accountId : String
  date : String
  categoryId : String
  description : String
  payee : String
  transferPairId : String
  amount : Int
  notes : String
  source : String
  createdAt : String
deriving DecidableEq

structure Category where
  id : String
  type : String
  name : String
  group : String
  assigned : Int
  hidden : Bool
deriving DecidableEq

/-- Valid account types. -/
def ACCOUNT_TYPES : List String :=
  ["cash", "checking", "credit_card", "loan", "savings", "asset", "crypto"]

/-- Valid transaction types. -/
def TRANSACTION_TYPES : List String := ["income", "expense", "transfer"]

/-- `DataStore` — in-memory representation of all CSV data. -/
structure DataStore where
  accounts : List Account
  transactions : List Transaction
  categories : List Category
deriving DecidableEq

/-! ## Result (src/lib/src/result.ts) -/

inductive Result (α : Type) where
  | ok (value : α)
  | err (error : String)
deriving DecidableEq

/-! ## Validation (src/lib/src/validators.ts)

`validateTransaction` receives objects whose `type`, `accountId`, `date` and
`amount` properties are present at every call site in scope here (create
inputs declare them required; update validates the merge with the existing
record), so the presence checks on those fields cannot fire, and the
`typeof amount !== 'number'` check is vacuous for an `Int`. -/

structure ValidationError where
  field : String
  message : String
deriving DecidableEq

structure ValidationResult where
  valid : Bool
  errors : List ValidationError
deriving DecidableEq

/-- JS `String.prototype.trim()`: strip whitespace from both ends
(kernel-reducible; core `String.trim` is not). -/
def jsTrim (s : String) : String :=
  String.mk
    (((s.data.dropWhile Char.isWhitespace).reverse.dropWhile
      Char.isWhitespace).reverse)

/-- The `^\d{4}-\d{2}-\d{2}$` date-format test. -/
def dateFormatValid (s : String) : Bool :=
  match s.data with
  | [y1, y2, y3, y4, h1, m1, m2, h2, d1, d2] =>
    y1.isDigit && y2.isDigit && y3.isDigit && y4.isDigit && h1 == '-' &&
      m1.isDigit && m2.isDigit && h2 == '-' && d1.isDigit && d2.isDigit
  | _ => false

/-- Validate a transaction record (the checked fields of the source). -/
def validateTransaction (type accountId date : String) (_amount : Int) :
    ValidationResult :=
  let errors :=
    (if type = "" || !TRANSACTION_TYPES.contains type then
      [ValidationError.mk "type"
        "Type must be one of: income, expense, transfer"]
     else []) ++
    (if jsTrim accountId = "" then
      [ValidationError.mk "accountId" "Account ID is required"]
     else []) ++
    (if jsTrim date = "" then
      [ValidationError.mk "date" "Date is required"]
     else if !dateFormatValid date then
      [ValidationError.mk "date" "Date must be in YYYY-MM-DD format"]
     else [])
  ⟨errors.isEmpty, errors⟩

/-- `errors.map((e) => e.field + ": " + e.message).join("; ")`. -/
def joinErrors (errors : List ValidationError) : String :=
  String.intercalate "; " (errors.map (fun e => e.field ++ ": " ++ e.message))

/-! ## ID generation (src/lib/src/ids.ts) -/

/-- JS `parseInt(s, 10)` on the fragment in play: an optional sign followed
by leading digits; no leading digits gives `NaN` (`none`). -/
def jsParseInt (s : String) : Option Int :=
  match s.data with
  | '-' :: rest =>
    let ds := rest.takeWhile Char.isDigit
    if ds.isEmpty then none else some (-(digitsVal ds : Int))
  | l =>
    let ds := l.takeWhile Char.isDigit
    if ds.isEmpty then none else some ((digitsVal ds : Int))

/-- The numeric value of `nextId`: max numeric id in the collection plus
one, defaulting to 1 for an empty collection, ignoring non-numeric ids.
Takes the ids of the records. -/
def nextIdNum (ids : List String) : Int :=
  (ids.foldl
    (fun m s =>
      match jsParseInt s with
      | some n => if n > m then n else m
      | none => m) 0) + 1

/-- `nextId(records)`: `String(max + 1)`.  Callers that immediately
`parseInt` the result (`createTransfer`, `bulkImportTransactions`) are
modelled with `nextIdNum` directly, since `parseInt(String(n), 10) = n`. -/
def nextId (ids : List String) : String := intToString (nextIdNum ids)

/-! ## Shared helpers -/

/-- JS string `<` (lexicographic code-unit comparison; all strings compared
in scope are ASCII dates). -/
def jsStrLt : List Char → List Char → Bool
  | [], [] => false
  | [], _ :: _ => true
  | _ :: _, [] => false
  | a :: as, b :: bs => if a < b then true else if b < a then false else jsStrLt as bs

/-- The `arr[findIndex(p)] = f(arr[findIndex(p)])` pattern: replace the first
element satisfying `p` (no effect if none does, matching the JS write to
index `-1`, which adds no array element). -/
def updateFirst (p : α → Bool) (f : α → α) : List α → List α
  | [] => []
  | x :: xs => if p x then f x :: xs else x :: updateFirst p f xs

/-- `clearReconciledForAccount(accounts, accountId)` — auto-clear reconciled
status (src/lib/src/transactions.ts). -/
def clearReconciledForAccount (accounts : List Account) (accountId : String) :
    List Account :=
  accounts.map (fun a =>
    if a.id = accountId ∧ a.reconciled ≠ "" then { a with reconciled := "" }
    else a)

/-! ## Account operations (src/lib/src/accounts.ts) -/

/-- Working balance: sum of all transaction amounts for an account. -/
def calculateWorkingBalance (accountId : String)
    (transactions : List Transaction) : Int :=
  (transactions.filter (fun t => t.accountId == accountId)).foldl
    (fun sum t => sum + t.amount) 0

/-- `deleteAccount(store, id)` — hard-delete, BLOCKED if any transactions
reference the account. -/
def deleteAccount (store : DataStore) (id : String) : Result DataStore :=
  if store.accounts.all (fun a => !(a.id == id)) then
    .err ("Account not found: " ++ id)
  else if store.transactions.any (fun t => t.accountId == id) then
    .err ("Cannot delete account " ++ id ++ ": has associated transactions")
  else
    .ok { store with accounts := store.accounts.filter (fun a => !(a.id == id)) }

/-! ## Category operations (src/unnamed/part_024 — categories module) -/

/-- `deleteCategory(store, id)` — hard-delete a category, nullifying
`categoryId` on ALL referencing transactions. -/
def deleteCategory (store : DataStore) (id : String) : Result DataStore :=
  if store.categories.all (fun c => !(c.id == id)) then
    .err ("Category not found: " ++ id)
  else
    let categories := store.categories.filter (fun c => !(c.id == id))
    let transactions := store.transactions.map (fun t =>
      if t.categoryId = id then { t with categoryId := "" } else t)
    .ok { store with categories, transactions }

/-! ## Transaction operations (src/lib/src/transactions.ts) -/

/-- Generate a deduplication key for a transaction:
`date + "|" + accountId + "|" + amount + "|" + description`. -/
def deduplicationKey (date accountId : String) (amount : Int)
    (description : String) : String :=
  date ++ "|" ++ accountId ++ "|" ++ intToString amount ++ "|" ++ description

structure CreateTransactionInput where
  type : String
  accountId : String
  date : String
  categoryId : Option String := none
  description : Option String := none
  payee : Option String := none
  amount : Int
  notes : Option String := none
  source : Option String := none

/-- `createTransaction(store, data)`; `now` is `new Date().toISOString()`. -/
def createTransaction (store : DataStore) (data : CreateTransactionInput)
    (now : String) : Result DataStore :=
  let validation := validateTransaction data.type data.accountId data.date data.amount
  if !validation.valid then .err (joinErrors validation.errors)
  else if !(store.accounts.any (fun a => a.id == data.accountId)) then
    .err ("Account not found: " ++ data.accountId)
  else
    let categoryId := data.categoryId.getD ""
    if categoryId ≠ "" ∧ !(store.categories.any (fun c => c.id == categoryId)) then
      .err ("Category not found: " ++ categoryId)
    else
      let transaction : Transaction :=
        { id := nextId (store.transactions.map (fun t => t.id))
          type := data.type
          accountId := data.accountId
          date := data.date
          categoryId := categoryId
          description := (data.description.map (fun s => jsTrim s)).getD ""
          payee := (data.payee.map (fun s => jsTrim s)).getD ""
          transferPairId := ""
          amount := data.amount
          notes := (data.notes.map (fun s => jsTrim s)).getD ""
          source := data.source.getD "manual"
          createdAt := now }
      let accounts := clearReconciledForAccount store.accounts data.accountId
      .ok { store with accounts, transactions := store.transactions ++ [transaction] }

structure UpdateTransactionInput where
  type : Option String := none
  accountId : Option String := none
  date : Option String := none
  categoryId : Option String := none
  description : Option String := none
  payee : Option String := none
  amount : Option Int := none
  notes : Option String := none

/-- `updateTransaction(store, id, changes)` — re-validates the merged record;
blocks `type`/`amount`/`accountId` changes on transfer members. -/
def updateTransaction (store : DataStore) (id : String)
    (changes : UpdateTransactionInput) : Result DataStore :=
  match store.transactions.find? (fun t => t.id == id) with
  | none => .err ("Transaction not found: " ++ id)
  | some existing =>
    if existing.transferPairId ≠ "" ∧ changes.type.isSome then
      .err "Cannot change type on a transfer transaction — use unlinkTransfer to convert"
    else if existing.transferPairId ≠ "" ∧ changes.amount.isSome then
      .err "Cannot change amount on a transfer transaction — use syncTransferAmount to keep pair in sync"
    else if existing.transferPairId ≠ "" ∧ changes.accountId.isSome then
      .err "Cannot change accountId on a transfer transaction — use unlinkTransfer first"
    else
      let merged : Transaction :=
        { existing with
          type := changes.type.getD existing.type
          accountId := changes.accountId.getD existing.accountId
          date := changes.date.getD existing.date
          categoryId := changes.categoryId.getD existing.categoryId
          description := changes.description.getD existing.description
          payee := changes.payee.getD existing.payee
          amount := changes.amount.getD existing.amount
          notes := changes.notes.getD existing.notes }
      let validation := validateTransaction merged.type merged.accountId merged.date merged.amount
      if !validation.valid then .err (joinErrors validation.errors)
      else if changes.accountId.isSome ∧
          !(store.accounts.any (fun a => some a.id = changes.accountId)) then
        .err ("Account not found: " ++ changes.accountId.getD "")
      else if changes.categoryId.isSome ∧ changes.categoryId ≠ some "" ∧
          !(store.categories.any (fun c => some c.id = changes.categoryId)) then
        .err ("Category not found: " ++ changes.categoryId.getD "")
      else
        let updated : Transaction :=
          { existing with
            type := merged.type
            accountId := merged.accountId
            date := merged.date
            categoryId := merged.categoryId
            description := jsTrim merged.description
            payee := jsTrim merged.payee
            amount := merged.amount
            notes := jsTrim merged.notes }
        let transactions :=
          updateFirst (fun t => t.id == id) (fun _ => updated) store.transactions
        let accounts := clearReconciledForAccount store.accounts existing.accountId
        let accounts :=
          match changes.accountId with
          | some newAccountId =>
            if newAccountId ≠ existing.accountId then
              clearReconciledForAccount accounts newAccountId
            else accounts
          | none => accounts
        .ok { store with accounts, transactions }

/-- `deleteTransaction(store, id)` — cascade deletes the transfer pair if it
exists.  `idsToDelete` is a JS `Set`; the list here may repeat an id when a
movement is self-paired, which changes neither the filter nor the
(idempotent) reconciled-clearing. -/
def deleteTransaction (store : DataStore) (id : String) : Result DataStore :=
  match store.transactions.find? (fun t => t.id == id) with
  | none => .err ("Transaction not found: " ++ id)
  | some transaction =>
    let idsToDelete :=
      id :: (if transaction.transferPairId ≠ "" then [transaction.transferPairId] else [])
    let transactions :=
      store.transactions.filter (fun t => !(idsToDelete.contains t.id))
    let affectedAccountIds :=
      idsToDelete.filterMap (fun tid =>
        (store.transactions.find? (fun tx => tx.id == tid)).map (fun t => t.accountId))
    let accounts :=
      affectedAccountIds.foldl
        (fun accs accountId => clearReconciledForAccount accs accountId)
        store.accounts
    .ok { store with accounts, transactions }

structure BulkCandidate where
  type : String
  date : String
  categoryId : Option String := none
  description : Option String := none
  payee : Option String := none
  amount : Int
  notes : Option String := none
  source : Option String := none

/-- The candidate loop of `bulkImportTransactions`: skip candidates dated
before the reconciled date, candidates failing validation, and candidates
whose deduplication key is already known; import the rest, extending the key
set and the id counter as it goes. -/
def bulkImportLoop (store : DataStore) (accountId reconciledDate now : String) :
    List BulkCandidate → List String → Int → List Transaction
  | [], _, _ => []
  | input :: rest, existingKeys, nextIdValue =>
    if reconciledDate ≠ "" ∧ jsStrLt input.date.data reconciledDate.data then
      bulkImportLoop store accountId reconciledDate now rest existingKeys nextIdValue
    else if !(validateTransaction input.type accountId input.date input.amount).valid then
      bulkImportLoop store accountId reconciledDate now rest existingKeys nextIdValue
    else
      let categoryId := input.categoryId.getD ""
      let key := deduplicationKey input.date accountId input.amount (input.description.getD "")
      if existingKeys.contains key then
        bulkImportLoop store accountId reconciledDate now rest existingKeys nextIdValue
      else
        let transaction : Transaction :=
          { id := intToString nextIdValue
            type := input.type
            accountId := accountId
            date := input.date
            categoryId :=
              if categoryId ≠ "" ∧ store.categories.any (fun c => c.id == categoryId) then
                categoryId
              else ""
            description := (input.description.map (fun s => jsTrim s)).getD ""
            payee := (input.payee.map (fun s => jsTrim s)).getD ""
            transferPairId := ""
            amount := input.amount
            notes := (input.notes.map (fun s => jsTrim s)).getD ""
            source := input.source.getD "import"
            createdAt := now }
        transaction ::
          bulkImportLoop store accountId reconciledDate now rest
            (existingKeys ++ [key]) (nextIdValue + 1)

/-- `bulkImportTransactions(store, { accountId, transactions })` — bulk
importing with deduplication; a batch that imports nothing returns the
store unchanged. -/
def bulkImportTransactions (store : DataStore) (accountId : String)
    (candidates : List BulkCandidate) (now : String) : Result DataStore :=
  match store.accounts.find? (fun a => a.id == accountId) with
  | none => .err ("Account not found: " ++ accountId)
  | some account =>
    let existingKeys :=
      (store.transactions.filter (fun t => t.accountId == accountId)).map
        (fun t => deduplicationKey t.date t.accountId t.amount t.description)
    let newTransactions :=
      bulkImportLoop store accountId account.reconciled now candidates
        existingKeys (nextIdNum (store.transactions.map (fun t => t.id)))
    if newTransactions.isEmpty then .ok store
    else
      let accounts := clearReconciledForAccount store.accounts accountId
      .ok { store with
            accounts := accounts
            transactions := store.transactions ++ newTransactions }

/-! ## Transfer operations (src/unnamed/part_022 — transfers module) -/

structure CreateTransferInput where
  fromAccountId : String
  toAccountId : String
  amount : Int
  date : String
  description : Option String := none
  notes : Option String := none

/-- `createTransfer(store, data)` — two linked transactions with mutual
`transferPairId`; `now` is `new Date().toISOString()`. -/
def createTransfer (store : DataStore) (data : CreateTransferInput)
    (now : String) : Result DataStore :=
  if jsTrim data.fromAccountId = "" then .err "fromAccountId is required"
  else if jsTrim data.toAccountId = "" then .err "toAccountId is required"
  else if data.fromAccountId = data.toAccountId then
    .err "Cannot transfer to the same account"
  else if jsTrim data.date = "" ∨ !dateFormatValid data.date then
    .err "Date must be in YYYY-MM-DD format"
  else if data.amount = 0 then .err "Amount must be a non-zero number"
  else if !(store.accounts.any (fun a => a.id == data.fromAccountId)) then
    .err ("Account not found: " ++ data.fromAccountId)
  else if !(store.accounts.any (fun a => a.id == data.toAccountId)) then
    .err ("Account not found: " ++ data.toAccountId)
  else
    let absAmount : Int := data.amount.natAbs
    let baseId := nextIdNum (store.transactions.map (fun t => t.id))
    let outflowId := intToString baseId
    let inflowId := intToString (baseId + 1)
    let outflow : Transaction :=
      { id := outflowId, type := "transfer", accountId := data.fromAccountId
        date := data.date, categoryId := ""
        description := (data.description.map (fun s => jsTrim s)).getD ""
        payee := "", transferPairId := inflowId, amount := -absAmount
        notes := (data.notes.map (fun s => jsTrim s)).getD ""
        source := "manual", createdAt := now }
    let inflow : Transaction :=
      { id := inflowId, type := "transfer", accountId := data.toAccountId
        date := data.date, categoryId := ""
        description := (data.description.map (fun s => jsTrim s)).getD ""
        payee := "", transferPairId := outflowId, amount := absAmount
        notes := (data.notes.map (fun s => jsTrim s)).getD ""
        source := "manual", createdAt := now }
    let accounts := store.accounts.map (fun a =>
      if (a.id = data.fromAccountId ∨ a.id = data.toAccountId) ∧ a.reconciled ≠ "" then
        { a with reconciled := "" }
      else a)
    .ok { store with
          accounts := accounts
          transactions := store.transactions ++ [outflow, inflow] }

/-- `syncTransferAmount(store, id, newAmount)` — set one side's amount,
flip the sign on the pair.  The only transfer check is that
`transferPairId` is non-empty and resolves; neither record's `type` is
inspected. -/
def syncTransferAmount (store : DataStore) (id : String) (newAmount : Int) :
    Result DataStore :=
  match store.transactions.find? (fun t => t.id == id) with
  | none => .err ("Transaction not found: " ++ id)
  | some transaction =>
    if transaction.transferPairId = "" then
      .err ("Transaction " ++ id ++ " is not a transfer")
    else
      match store.transactions.find? (fun t => t.id == transaction.transferPairId) with
      | none => .err ("Transfer pair not found: " ++ transaction.transferPairId)
      | some pair =>
        let transactions :=
          updateFirst (fun t => t.id == transaction.transferPairId)
            (fun t => { t with amount := -newAmount })
            (updateFirst (fun t => t.id == id)
              (fun t => { t with amount := newAmount }) store.transactions)
        let accounts := store.accounts.map (fun a =>
          if (a.id = transaction.accountId ∨ a.id = pair.accountId) ∧
              a.reconciled ≠ "" then
            { a with reconciled := "" }
          else a)
        .ok { store with accounts, transactions }

/-- `unlinkTransfer(store, id, newType)` — convert one side to a plain
income/expense movement (TS restricts `newType` to that union), deleting the
former pair outright; a dangling pair reference deletes nothing. -/
def unlinkTransfer (store : DataStore) (id : String) (newType : String) :
    Result DataStore :=
  match store.transactions.find? (fun t => t.id == id) with
  | none => .err ("Transaction not found: " ++ id)
  | some transaction =>
    if transaction.transferPairId = "" then
      .err ("Transaction " ++ id ++ " is not a transfer")
    else
      let pairId := transaction.transferPairId
      let pair := store.transactions.find? (fun t => t.id == pairId)
      let transactions :=
        updateFirst (fun t => t.id == id)
          (fun t => { t with type := newType, transferPairId := "" })
          (store.transactions.filter (fun t => !(t.id == pairId)))
      let accounts := store.accounts.map (fun a =>
        if (a.id = transaction.accountId ∨ pair.map (fun p => p.accountId) = some a.id) ∧
            a.reconciled ≠ "" then
          { a with reconciled := "" }
        else a)
      .ok { store with accounts, transactions }

/-! ## Reconciliation (src/lib/src/reconcile.ts) -/

/--
Modelled from the spec: `createBalanceAdjustment(accountId, reportedBalance)`
is declared in the spec (§4.5) and imported by the repository's tests, but
its implementation is missing from src/ (src/lib/src/reconcile.ts ends at
`reconcileAccount`).  Per the spec's words: it fails if there is no
discrepancy; otherwise it synthesizes a single movement of type `income`
(positive discrepancy) or `expense` (negative discrepancy) for exactly the
discrepancy amount, tagged with the distinct source `"reconciliation"` and
the fixed description `"Balance adjustment"` (the description and error text
the tests expect).  `today`/`now` stand for the clock reads.
-/
def createBalanceAdjustment (store : DataStore) (accountId : String)
    (reportedBalance : Int) (today now : String) : Result DataStore :=
  if store.accounts.all (fun a => !(a.id == accountId)) then
    .err ("Account not found: " ++ accountId)
  else
    let workingBalance := calculateWorkingBalance accountId store.transactions
    let discrepancy := reportedBalance - workingBalance
    if discrepancy = 0 then .err "No discrepancy to adjust"
    else
      let transaction : Transaction :=
        { id := nextId (store.transactions.map (fun t => t.id))
          type := if discrepancy > 0 then "income" else "expense"
          accountId := accountId
          date := today
          categoryId := ""
          description := "Balance adjustment"
          payee := ""
          transferPairId := ""
          amount := discrepancy
          notes := ""
          source := "reconciliation"
          createdAt := now }
      .ok { store with transactions := store.transactions ++ [transaction] }

/-! ## Lemmas: digit rendering and parsing -/

lemma charVal_digitChar {d : Nat} (h : d < 10) : charVal (digitChar d) = d := by
  interval_cases d <;> decide

lemma isDigit_digitChar {d : Nat} (h : d < 10) : (digitChar d).isDigit = true := by
  interval_cases d <;> decide

lemma digitsVal_cons (c : Char) (l : List Char) :
    digitsVal (c :: l) = l.foldl (fun n x => 10 * n + charVal x) (charVal c) := by
  simp [digitsVal]

lemma digitsVal_append_singleton (l : List Char) (c : Char) :
    digitsVal (l ++ [c]) = 10 * digitsVal l + charVal c := by
  simp [digitsVal, List.foldl_append]

lemma natToCharsAux_spec :
    ∀ fuel n : Nat, n < 10 ^ fuel →
      digitsVal (natToCharsAux (fuel + 1) n) = n ∧
      (∀ c ∈ natToCharsAux (fuel + 1) n, c.isDigit = true) ∧
      natToCharsAux (fuel + 1) n ≠ [] := by
  intro fuel
  induction fuel with
  | zero =>
    intro n hn
    have h0 : n = 0 := by simp only [pow_zero] at hn; omega
    subst h0
    refine ⟨by decide, by decide, by decide⟩
  | succ f ih =>
    intro n hn
    by_cases h10 : n < 10
    · rw [natToCharsAux, if_pos h10]
      refine ⟨?_, ?_, by simp⟩
      · rw [digitsVal_cons]
        simp [charVal_digitChar h10]
      · intro c hc
        simp only [List.mem_singleton] at hc
        subst hc
        exact isDigit_digitChar h10
    · have hdiv : n / 10 < 10 ^ f := by
        rw [Nat.div_lt_iff_lt_mul (by norm_num)]
        calc n < 10 ^ (f + 1) := hn
        _ = 10 ^ f * 10 := by ring
      obtain ⟨ihv, ihd, ihne⟩ := ih (n / 10) hdiv
      rw [natToCharsAux, if_neg h10]
      refine ⟨?_, ?_, by simp⟩
      · rw [digitsVal_append_singleton, ihv,
          charVal_digitChar (Nat.mod_lt n (by norm_num))]
        omega
      · intro c hc
        rcases List.mem_append.1 hc with h | h
        · exact ihd c h
        · simp only [List.mem_singleton] at h
          subst h
          exact isDigit_digitChar (Nat.mod_lt n (by norm_num))

lemma lt_ten_pow_self (n : Nat) : n < 10 ^ n := Nat.lt_pow_self (by norm_num) n

lemma digitsVal_natToChars (n : Nat) : digitsVal (natToChars n) = n :=
  (natToCharsAux_spec n n (lt_ten_pow_self n)).1

lemma isDigit_of_mem_natToChars {n : Nat} {c : Char} (h : c ∈ natToChars n) :
    c.isDigit = true :=
  (natToCharsAux_spec n n (lt_ten_pow_self n)).2.1 c h

lemma natToChars_ne_nil (n : Nat) : natToChars n ≠ [] :=
  (natToCharsAux_spec n n (lt_ten_pow_self n)).2.2

lemma natToCharsAux_length_le :
    ∀ fuel n k : Nat, n < 10 ^ k → 1 ≤ k →
      (natToCharsAux fuel n).length ≤ k := by
  intro fuel
  induction fuel with
  | zero => intro n k _ _; simp [natToCharsAux]
  | succ f ih =>
    intro n k hn hk
    by_cases h10 : n < 10
    · rw [natToCharsAux, if_pos h10]
      simpa using hk
    · have hk2 : 2 ≤ k := by
        by_contra hlt
        have hk1 : k = 1 := by omega
        subst hk1
        simp only [pow_one] at hn
        omega
      have hdiv : n / 10 < 10 ^ (k - 1) := by
        rw [Nat.div_lt_iff_lt_mul (by norm_num)]
        calc n < 10 ^ k := hn
        _ = 10 ^ (k - 1) * 10 := by
            rw [← pow_succ]
            congr 1
            omega
      rw [natToCharsAux, if_neg h10]
      have hrec := ih (n / 10) (k - 1) hdiv (by omega)
      simp only [List.length_append, List.length_singleton]
      omega

lemma natToChars_length_le {n k : Nat} (hn : n < 10 ^ k) (hk : 1 ≤ k) :
    (natToChars n).length ≤ k :=
  natToCharsAux_length_le (n + 1) n k hn hk

lemma digitsVal_replicate_zero :
    ∀ (k : Nat) (l : List Char),
      digitsVal (List.replicate k '0' ++ l) = digitsVal l := by
  intro k
  induction k with
  | zero => intro l; simp
  | succ m ih =>
    intro l
    have hrep : List.replicate (m + 1) '0' ++ l = '0' :: (List.replicate m '0' ++ l) := by
      simp [List.replicate_succ]
    rw [hrep, digitsVal_cons]
    have hv : charVal '0' = 0 := by decide
    simp only [hv, Nat.mul_zero, Nat.zero_add]
    exact ih l

lemma takeWhile_append_stop {p : Char → Bool} :
    ∀ (a b : List Char), (∀ c ∈ a, p c = true) →
      (∀ c, b.head? = some c → p c = false) →
      (a ++ b).takeWhile p = a ∧ (a ++ b).dropWhile p = b := by
  intro a
  induction a with
  | nil =>
    intro b _ hb
    constructor
    · cases b with
      | nil => simp
      | cons x xs =>
        simp only [List.nil_append, List.takeWhile_cons, hb x rfl]
        simp
    · cases b with
      | nil => simp
      | cons x xs =>
        simp only [List.nil_append, List.dropWhile_cons, hb x rfl]
        simp
  | cons x xs ih =>
    intro b ha hb
    have hx : p x = true := ha x (List.mem_cons_self x xs)
    have hxs : ∀ c ∈ xs, p c = true := fun c hc => ha c (List.mem_cons_of_mem x hc)
    obtain ⟨h1, h2⟩ := ih b hxs hb
    constructor
    · simp only [List.cons_append, List.takeWhile_cons, hx, if_true, h1]
    · simp only [List.cons_append, List.dropWhile_cons, hx, if_true, h2]

lemma parseUnsigned_all_digits {l : List Char} (hl : ∀ c ∈ l, c.isDigit = true)
    (hne : l ≠ []) : parseUnsigned l = some (digitsVal l, 0) := by
  obtain ⟨ht, hd⟩ := takeWhile_append_stop l [] hl (by intro c hc; simp at hc)
  simp only [List.append_nil] at ht hd
  rw [parseUnsigned]
  rw [hd, ht]
  simp [List.isEmpty_iff, hne]

lemma parseUnsigned_fixed {a b : List Char} (ha : ∀ c ∈ a, c.isDigit = true)
    (hane : a ≠ []) (hb : ∀ c ∈ b, c.isDigit = true) :
    parseUnsigned (a ++ '.' :: b) =
      some (digitsVal a * 10 ^ b.length + digitsVal b, b.length) := by
  obtain ⟨ht, hd⟩ := takeWhile_append_stop a ('.' :: b) ha
    (by intro c hc; simp only [List.head?_cons, Option.some.injEq] at hc; subst hc; decide)
  rw [parseUnsigned]
  rw [hd, ht]
  have hia : a.isEmpty = false := by simp [List.isEmpty_iff, hane]
  simp only [hia, Bool.false_and, if_false]
  have hball : b.all Char.isDigit = true := List.all_eq_true.2 hb
  simp [hball]

lemma parseDec_digit_head {l : List Char}
    (hhead : ∀ c, l.head? = some c → c.isDigit = true) :
    parseDec l = (parseUnsigned l).map (fun p => ((p.1 : Int), p.2)) := by
  have hne : ¬(l.head? = some '-') := by
    intro h
    exact absurd (hhead '-' h) (by decide)
  rw [parseDec, if_neg hne]

lemma parseDec_neg (rest : List Char) :
    parseDec ('-' :: rest) =
      (parseUnsigned rest).map (fun p => (-(p.1 : Int), p.2)) := by
  simp [parseDec]

lemma mkStr_ne_empty {l : List Char} (h : l ≠ []) : String.mk l ≠ "" := by
  intro he
  apply h
  have hdata := congrArg String.data he
  simpa using hdata

lemma head_digit_of_digits {l : List Char} (hl : ∀ c ∈ l, c.isDigit = true) :
    ∀ c, l.head? = some c → c.isDigit = true := by
  intro c hc
  cases l with
  | nil => simp at hc
  | cons x xs =>
    simp only [List.head?_cons, Option.some.injEq] at hc
    subst hc
    exact hl x (List.mem_cons_self x xs)

lemma fromIntegerAmount_int_zero (i : Int) :
    fromIntegerAmount ⟨i, 0⟩ 0 = String.mk (intChars i) := rfl

lemma fromIntegerAmount_int_pos (i : Int) (p : Nat) (hp : p ≠ 0) :
    fromIntegerAmount ⟨i, 0⟩ p =
      if i < 0 then String.mk ('-' :: fixedChars i.natAbs p)
      else String.mk (fixedChars i.natAbs p) := by
  rw [fromIntegerAmount, if_neg hp]
  rfl

lemma fixedChars_digits_dot (m : Nat) (p : Nat) (hp : 1 ≤ p) :
    parseUnsigned (fixedChars m p) = some (m, p) := by
  have hmod : m % 10 ^ p < 10 ^ p := Nat.mod_lt _ (by positivity)
  have hlen : (natToChars (m % 10 ^ p)).length ≤ p := natToChars_length_le hmod hp
  have hBdig : ∀ c ∈ List.replicate (p - (natToChars (m % 10 ^ p)).length) '0' ++
      natToChars (m % 10 ^ p), c.isDigit = true := by
    intro c hc
    rcases List.mem_append.1 hc with h | h
    · rw [List.eq_of_mem_replicate h]; decide
    · exact isDigit_of_mem_natToChars h
  have hBlen : (List.replicate (p - (natToChars (m % 10 ^ p)).length) '0' ++
      natToChars (m % 10 ^ p)).length = p := by
    simp only [List.length_append, List.length_replicate]
    omega
  have hBval : digitsVal (List.replicate (p - (natToChars (m % 10 ^ p)).length) '0' ++
      natToChars (m % 10 ^ p)) = m % 10 ^ p := by
    rw [digitsVal_replicate_zero, digitsVal_natToChars]
  have hdm : digitsVal (natToChars (m / 10 ^ p)) * 10 ^ p + m % 10 ^ p = m := by
    rw [digitsVal_natToChars, Nat.mul_comm, Nat.div_add_mod]
  rw [fixedChars]
  rw [parseUnsigned_fixed (fun c hc => isDigit_of_mem_natToChars hc)
    (natToChars_ne_nil _) hBdig]
  rw [hBlen, hBval, hdm]

lemma fixedChars_head_digit (m : Nat) (p : Nat) :
    ∀ c, (fixedChars m p).head? = some c → c.isDigit = true := by
  intro c hc
  rw [fixedChars] at hc
  have hne := natToChars_ne_nil (m / 10 ^ p)
  cases hh : natToChars (m / 10 ^ p) with
  | nil => exact absurd hh hne
  | cons d ds =>
    rw [hh] at hc
    simp only [List.cons_append, List.head?_cons, Option.some.injEq] at hc
    subst hc
    exact isDigit_of_mem_natToChars (hh ▸ List.mem_cons_self d ds)

lemma fixedChars_ne_nil (m : Nat) (p : Nat) : fixedChars m p ≠ [] := by
  rw [fixedChars]
  intro h
  exact natToChars_ne_nil _ (List.append_eq_nil.1 h).1

/-- The central money lemma: converting an integer minor-unit amount to its
CSV decimal string and back is the identity, at every precision. -/
lemma toIntegerAmount_fromIntegerAmount (i : Int) (p : Nat) :
    toIntegerAmount (fromIntegerAmount ⟨i, 0⟩ p) p = i := by
  by_cases hp : p = 0
  · subst hp
    rw [fromIntegerAmount_int_zero]
    by_cases hi : i < 0
    · rw [intChars, if_pos hi]
      rw [toIntegerAmount, if_neg (mkStr_ne_empty (by simp))]
      show (match parseDec ('-' :: natToChars i.natAbs) with
        | none => 0
        | some (m, k) => roundScaled m k 0) = i
      rw [parseDec_neg]
      rw [parseUnsigned_all_digits (fun c hc => isDigit_of_mem_natToChars hc)
        (natToChars_ne_nil _)]
      simp only [Option.map_some, digitsVal_natToChars]
      show roundScaled (-(i.natAbs : Int)) 0 0 = i
      rw [roundScaled, if_pos (le_refl 0)]
      simp only [Nat.sub_self, pow_zero, mul_one]
      omega
    · rw [intChars, if_neg hi]
      rw [toIntegerAmount, if_neg (mkStr_ne_empty (natToChars_ne_nil _))]
      show (match parseDec (natToChars i.natAbs) with
        | none => 0
        | some (m, k) => roundScaled m k 0) = i
      rw [parseDec_digit_head
        (head_digit_of_digits (fun c hc => isDigit_of_mem_natToChars hc))]
      rw [parseUnsigned_all_digits (fun c hc => isDigit_of_mem_natToChars hc)
        (natToChars_ne_nil _)]
      simp only [Option.map_some, digitsVal_natToChars]
      show roundScaled ((i.natAbs : Int)) 0 0 = i
      rw [roundScaled, if_pos (le_refl 0)]
      simp only [Nat.sub_self, pow_zero, mul_one]
      omega
  · have hp1 : 1 ≤ p := Nat.one_le_iff_ne_zero.2 hp
    rw [fromIntegerAmount_int_pos i p hp]
    by_cases hi : i < 0
    · rw [if_pos hi]
      rw [toIntegerAmount, if_neg (mkStr_ne_empty (by simp))]
      show (match parseDec ('-' :: fixedChars i.natAbs p) with
        | none => 0
        | some (m, k) => roundScaled m k p) = i
      rw [parseDec_neg, fixedChars_digits_dot i.natAbs p hp1]
      show roundScaled (-(i.natAbs : Int)) p p = i
      rw [roundScaled, if_pos (le_refl p)]
      simp only [Nat.sub_self, pow_zero, mul_one]
      omega
    · rw [if_neg hi]
      rw [toIntegerAmount, if_neg (mkStr_ne_empty (fixedChars_ne_nil _ _))]
      show (match parseDec (fixedChars i.natAbs p) with
        | none => 0
        | some (m, k) => roundScaled m k p) = i
      rw [parseDec_digit_head (fixedChars_head_digit i.natAbs p)]
      rw [fixedChars_digits_dot i.natAbs p hp1]
      show roundScaled ((i.natAbs : Int)) p p = i
      rw [roundScaled, if_pos (le_refl p)]
      simp only [Nat.sub_self, pow_zero, mul_one]
      omega

/-! ## Lemmas: record lookup and the codec round-trip -/

lemma objGet_cons_of_ne {β : Type} (q : String × β) (ps : List (String × β))
    (key : String) (h : q.1 ≠ key) : objGet (q :: ps) key = objGet ps key := by
  have hb : (q.1 == key) = false := by simp [h]
  simp [objGet, List.filter_cons, hb]

lemma objGet_cons_self {β : Type} (q : String × β) (ps : List (String × β))
    (h : ∀ r ∈ ps, r.1 ≠ q.1) : objGet (q :: ps) q.1 = some q.2 := by
  have hfil : ps.filter (fun p => p.1 == q.1) = [] :=
    List.filter_eq_nil_iff.2 (fun r hr => by simp [h r hr])
  simp [objGet, List.filter_cons, hfil]

lemma serialize_keys (x : List (String × Value)) (schema : List FieldDef)
    (p : Nat) :
    (serialize x schema p).map Prod.fst = schema.map (fun f => f.name) := by
  unfold serialize
  rw [List.map_map]
  exact List.map_congr_left (fun f _ => rfl)

lemma repB_keys :
    ∀ (fs : List FieldDef) (ps : List (String × Value)),
      representableB fs ps = true →
      ps.map Prod.fst = fs.map (fun f => f.name) := by
  intro fs
  induction fs with
  | nil =>
    intro ps h
    cases ps with
    | nil => rfl
    | cons q qs => simp [representableB] at h
  | cons f fs ih =>
    intro ps h
    cases ps with
    | nil => simp [representableB] at h
    | cons q qs =>
      simp only [representableB, Bool.and_eq_true, beq_iff_eq] at h
      obtain ⟨⟨h1, _⟩, h3⟩ := h
      simp [List.map_cons, h1, ih qs h3]

lemma serialize_congr_record (x y : List (String × Value)) (fs : List FieldDef)
    (p : Nat) (h : ∀ g ∈ fs, objGet x g.name = objGet y g.name) :
    serialize x fs p = serialize y fs p := by
  unfold serialize
  exact List.map_congr_left (fun g hg => by rw [h g hg])

lemma deserialize_congr_record (x y : List (String × String)) (fs : List FieldDef)
    (p : Nat) (h : ∀ g ∈ fs, objGet x g.name = objGet y g.name) :
    deserialize x fs p = deserialize y fs p := by
  unfold deserialize
  exact List.map_congr_left (fun g hg => by rw [h g hg])

lemma serialize_cons_string (x : List (String × Value)) (name : String)
    (fs : List FieldDef) (p : Nat) :
    serialize x (⟨name, .string⟩ :: fs) p =
      (name, match objGet x name with | none => "" | some v => jsToString v) ::
        serialize x fs p := rfl

lemma serialize_cons_boolean (x : List (String × Value)) (name : String)
    (fs : List FieldDef) (p : Nat) :
    serialize x (⟨name, .boolean⟩ :: fs) p =
      (name, match objGet x name with | none => "false" | some v => jsToString v) ::
        serialize x fs p := rfl

lemma serialize_cons_money (x : List (String × Value)) (name : String)
    (fs : List FieldDef) (p : Nat) :
    serialize x (⟨name, .money⟩ :: fs) p =
      (name, fromIntegerAmount
        (match objGet x name with | none => ⟨0, 0⟩ | some v => jsToNumber v) p) ::
        serialize x fs p := rfl

lemma deserialize_cons (raw : List (String × String)) (f : FieldDef)
    (fs : List FieldDef) (p : Nat) :
    deserialize raw (f :: fs) p =
      (f.name,
        match f.type, objGet raw f.name with
        | .string, none => Value.str ""
        | .string, some v => Value.str v
        | .number, none => Value.num ⟨0, 0⟩
        | .number, some v =>
          if v = "" then Value.num ⟨0, 0⟩
          else
            Value.num (match parseDec v.data with
                       | some (m, k) => decNorm m k
                       | none => ⟨0, 0⟩)
        | .boolean, none => Value.bool false
        | .boolean, some v => Value.bool (v == "true")
        | .money, none => Value.money 0
        | .money, some v => Value.money (toIntegerAmount v p)) ::
        deserialize raw fs p := rfl

/-- The schema-generic round-trip: on a schema with distinct column names and
no plain `number` fields (the three entity schemas qualify), deserializing a
serialized representable record gives the record back, at every precision. -/
theorem deserialize_serialize :
    ∀ (schema : List FieldDef) (x : List (String × Value)) (p : Nat),
      (schema.map (fun f => f.name)).Nodup →
      (∀ f ∈ schema, f.type ≠ FieldType.number) →
      representableB schema x = true →
      deserialize (serialize x schema p) schema p = x := by
  intro schema
  induction schema with
  | nil =>
    intro x p _ _ hrep
    cases x with
    | nil => rfl
    | cons q qs => simp [representableB] at hrep
  | cons f fs ih =>
    intro x p hnodup hnonum hrep
    cases x with
    | nil => simp [representableB] at hrep
    | cons q qs =>
      obtain ⟨fname, fty⟩ := f
      obtain ⟨qk, qv⟩ := q
      simp only [representableB, Bool.and_eq_true, beq_iff_eq] at hrep
      obtain ⟨⟨h1, h2⟩, h3⟩ := hrep
      subst qk
      simp only [List.map_cons] at hnodup
      have hnotin : fname ∉ fs.map (fun g => g.name) := (List.nodup_cons.1 hnodup).1
      have hnodup2 : (fs.map (fun g => g.name)).Nodup := (List.nodup_cons.1 hnodup).2
      have hnonum2 : ∀ g ∈ fs, g.type ≠ FieldType.number :=
        fun g hg => hnonum g (List.mem_cons_of_mem _ hg)
      have hqkeys : qs.map Prod.fst = fs.map (fun g => g.name) := repB_keys fs qs h3
      have hlook : objGet ((fname, qv) :: qs) fname = some qv := by
        apply objGet_cons_self
        intro r hr hre
        apply hnotin
        have hre2 : r.1 = fname := hre
        rw [← hre2, ← hqkeys]
        exact List.mem_map_of_mem Prod.fst hr
      have htailS : serialize ((fname, qv) :: qs) fs p = serialize qs fs p := by
        apply serialize_congr_record
        intro g hg
        apply objGet_cons_of_ne
        intro hgn
        have hgn2 : fname = g.name := hgn
        exact hnotin (hgn2 ▸ List.mem_map_of_mem (fun g => g.name) hg)
      have hheadraw : ∀ v : String,
          objGet ((fname, v) :: serialize qs fs p) fname = some v := by
        intro v
        apply objGet_cons_self
        intro r hr hre
        apply hnotin
        have hre2 : r.1 = fname := hre
        rw [← hre2, ← serialize_keys qs fs p]
        exact List.mem_map_of_mem Prod.fst hr
      have htailD : ∀ v : String,
          deserialize ((fname, v) :: serialize qs fs p) fs p =
            deserialize (serialize qs fs p) fs p := by
        intro v
        apply deserialize_congr_record
        intro g hg
        apply objGet_cons_of_ne
        intro hgn
        have hgn2 : fname = g.name := hgn
        exact hnotin (hgn2 ▸ List.mem_map_of_mem (fun g => g.name) hg)
      have hih : deserialize (serialize qs fs p) fs p = qs :=
        ih qs p hnodup2 hnonum2 h3
      cases fty with
      | number =>
        exact absurd rfl (hnonum ⟨fname, .number⟩ (List.mem_cons_self _ _))
      | string =>
        obtain ⟨s, hs⟩ : ∃ s, qv = Value.str s := by
          cases qv with
          | str s => exact ⟨s, rfl⟩
          | num d => simp [valueHasType] at h2
          | bool b => simp [valueHasType] at h2
          | money i => simp [valueHasType] at h2
        subst hs
        rw [serialize_cons_string, hlook, htailS]
        rw [deserialize_cons, hheadraw, htailD, hih]
        rfl
      | boolean =>
        obtain ⟨b, hb⟩ : ∃ b, qv = Value.bool b := by
          cases qv with
          | str s => simp [valueHasType] at h2
          | num d => simp [valueHasType] at h2
          | bool b => exact ⟨b, rfl⟩
          | money i => simp [valueHasType] at h2
        subst hb
        rw [serialize_cons_boolean, hlook, htailS]
        rw [deserialize_cons, hheadraw, htailD, hih]
        cases b with
        | true => rfl
        | false => rfl
      | money =>
        obtain ⟨i, hi⟩ : ∃ i, qv = Value.money i := by
          cases qv with
          | str s => simp [valueHasType] at h2
          | num d => simp [valueHasType] at h2
          | bool b => simp [valueHasType] at h2
          | money i => exact ⟨i, rfl⟩
        subst hi
        rw [serialize_cons_money, hlook, htailS]
        rw [deserialize_cons, hheadraw, htailD, hih]
        show (fname, Value.money (toIntegerAmount (fromIntegerAmount ⟨i, 0⟩ p) p)) :: qs =
          (fname, Value.money i) :: qs
        rw [toIntegerAmount_fromIntegerAmount]

/-! ## Test fixtures shared by the concrete witnesses below -/

/-- A sample account (id and reconciled date as given). -/
def acct (i rec : String) : Account :=
  ⟨i, "Checking", "checking", "USD", "Chase", 0, false, rec, "2025-01-01T00:00:00Z"⟩

/-- A sample transaction (id, kind, owning account, pair id, amount). -/
def txn (i ty accId pair : String) (amt : Int) : Transaction :=
  ⟨i, ty, accId, "2025-01-15", "", "", "", pair, amt, "", "manual", ""⟩

/-- A sample representable account record for the codec. -/
def sampleAccountRecord : List (String × Value) :=
  [("id", Value.str "1"), ("name", Value.str "Checking"),
   ("type", Value.str "checking"), ("currency", Value.str "USD"),
   ("institution", Value.str "Chase"), ("balance", Value.money (-123456)),
   ("hidden", Value.bool false), ("reconciled", Value.str ""),
   ("createdAt", Value.str "2025-01-01T00:00:00Z")]

/-! ## Claim C1 -/

/-- C1: Codec round-trip — for every entity schema (account, movement,
category), every precision `p` (hence every supported currency precision),
and every representable record `x` (all money fields integer minor units),
`deserialize (serialize x schema p) schema p = x` exactly; the money scaling
is drift-free. -/
theorem c1_codec_roundtrip (p : Nat) (x : List (String × Value)) :
    (representableB ACCOUNT_SCHEMA x = true →
      deserialize (serialize x ACCOUNT_SCHEMA p) ACCOUNT_SCHEMA p = x) ∧
    (representableB TRANSACTION_SCHEMA x = true →
      deserialize (serialize x TRANSACTION_SCHEMA p) TRANSACTION_SCHEMA p = x) ∧
    (representableB CATEGORY_SCHEMA x = true →
      deserialize (serialize x CATEGORY_SCHEMA p) CATEGORY_SCHEMA p = x) :=
  ⟨fun h => deserialize_serialize ACCOUNT_SCHEMA x p (by decide) (by decide) h,
   fun h => deserialize_serialize TRANSACTION_SCHEMA x p (by decide) (by decide) h,
   fun h => deserialize_serialize CATEGORY_SCHEMA x p (by decide) (by decide) h⟩

/-- C1 witness: the round-trip evaluated at a concrete account record and
precision 2. -/
theorem c1_codec_roundtrip_witness :
    representableB ACCOUNT_SCHEMA sampleAccountRecord = true ∧
    deserialize (serialize sampleAccountRecord ACCOUNT_SCHEMA 2) ACCOUNT_SCHEMA 2 =
      sampleAccountRecord :=
  ⟨by decide, (c1_codec_roundtrip 2 sampleAccountRecord).1 (by decide)⟩

/-! ## Claim C3 -/

/-- C3: the persistence read operation returns an empty record list when the
target file is absent (`none` — the `access` check rejects and the try/catch
yields `[]`, never a thrown error) or when it contains at most a header row
(at most one parsed CSV row). -/
theorem c3_safeReadCSV_empty (schema : List FieldDef) (options : ReadCSVOptions) :
    safeReadCSV none schema options = [] ∧
    ∀ content : String, (csvRows content).length ≤ 1 →
      safeReadCSV (some content) schema options = [] := by
  constructor
  · rfl
  · intro content hlen
    have hp : parseCSV content = [] := by
      unfold parseCSV
      cases hr : csvRows content with
      | nil => rfl
      | cons headers rest =>
        cases rest with
        | nil => rfl
        | cons r rs =>
          rw [hr] at hlen
          simp at hlen
    show readCSVFile content schema options = []
    unfold readCSVFile
    rw [hp]
    rfl

/-- C3 witness: a file containing only the category header row reads as `[]`,
and a missing file reads as `[]`. -/
theorem c3_safeReadCSV_empty_witness :
    ((csvRows "id,name,group,assigned,hidden\n").length ≤ 1 ∧
      safeReadCSV (some "id,name,group,assigned,hidden\n") CATEGORY_SCHEMA {} = []) ∧
    safeReadCSV (none : Option String) CATEGORY_SCHEMA {} = [] :=
  ⟨⟨by decide, (c3_safeReadCSV_empty CATEGORY_SCHEMA {}).2 _ (by decide)⟩,
   (c3_safeReadCSV_empty CATEGORY_SCHEMA {}).1⟩

/-! ## Claim C7 -/

/-- C7: hard-deleting an account referenced by at least one movement fails
with the conflict error (and, the operation being a pure function that
returns only this error, the aggregate is left unchanged). -/
theorem c7_deleteAccount_blocked (store : DataStore) (a : Account)
    (ha : a ∈ store.accounts)
    (ht : ∃ t ∈ store.transactions, t.accountId = a.id) :
    deleteAccount store a.id =
      Result.err ("Cannot delete account " ++ a.id ++ ": has associated transactions") := by
  have h1 : store.accounts.all (fun x => !(x.id == a.id)) ≠ true := by
    intro hall
    have := List.all_eq_true.1 hall a ha
    simp at this
  have h2 : store.transactions.any (fun t => t.accountId == a.id) = true := by
    obtain ⟨t, htm, hta⟩ := ht
    exact List.any_eq_true.2 ⟨t, htm, by simp [hta]⟩
  unfold deleteAccount
  rw [if_neg h1, if_pos h2]

/-- C7 witness: deleting an account with one movement fails with the
conflict error. -/
theorem c7_deleteAccount_blocked_witness :
    deleteAccount ⟨[acct "a1" ""], [txn "1" "expense" "a1" "" (-50)], []⟩ "a1" =
      Result.err ("Cannot delete account " ++ "a1" ++ ": has associated transactions") :=
  c7_deleteAccount_blocked ⟨[acct "a1" ""], [txn "1" "expense" "a1" "" (-50)], []⟩
    (acct "a1" "") (by decide) ⟨txn "1" "expense" "a1" "" (-50), by decide, rfl⟩

/-! ## Claim C6 -/

/-- C6: hard-deleting an existing category succeeds; the category is removed,
every referencing movement has `categoryId` cleared, every other movement is
unchanged, and accounts (including `reconciled`) and other categories are
untouched. -/
theorem c6_deleteCategory_nullify (store : DataStore) (id : String)
    (hex : ∃ c ∈ store.categories, c.id = id) :
    ∃ s', deleteCategory store id = Result.ok s' ∧
      s'.accounts = store.accounts ∧
      s'.categories = store.categories.filter (fun c => !(c.id == id)) ∧
      s'.transactions = store.transactions.map
        (fun t => if t.categoryId = id then { t with categoryId := "" } else t) ∧
      (∀ t ∈ store.transactions, t.categoryId = id →
        { t with categoryId := "" } ∈ s'.transactions) ∧
      (∀ t ∈ store.transactions, t.categoryId ≠ id → t ∈ s'.transactions) := by
  have hcond : store.categories.all (fun c => !(c.id == id)) ≠ true := by
    intro hall
    obtain ⟨c, hcm, hcid⟩ := hex
    have := List.all_eq_true.1 hall c hcm
    simp [hcid] at this
  refine ⟨⟨store.accounts,
           store.transactions.map
             (fun t => if t.categoryId = id then { t with categoryId := "" } else t),
           store.categories.filter (fun c => !(c.id == id))⟩, ?_, rfl, rfl, rfl, ?_, ?_⟩
  · unfold deleteCategory
    rw [if_neg hcond]
  · intro t htm hcat
    exact List.mem_map.2 ⟨t, htm, by simp [hcat]⟩
  · intro t htm hcat
    exact List.mem_map.2 ⟨t, htm, by simp [hcat]⟩

/-- C6 witness: deleting a category with two referencing movements clears
both and touches nothing else. -/
theorem c6_deleteCategory_nullify_witness :
    ∃ s', deleteCategory
        ⟨[acct "a1" "2025-01-01"],
         [{ txn "1" "expense" "a1" "" (-5) with categoryId := "c1" },
          { txn "2" "expense" "a1" "" (-6) with categoryId := "c1" },
          { txn "3" "expense" "a1" "" (-7) with categoryId := "c2" }],
         [⟨"c1", "expense", "Groceries", "Food", 500, false⟩,
          ⟨"c2", "expense", "Dining", "Food", 100, false⟩]⟩ "c1" = Result.ok s' ∧
      s'.accounts = [acct "a1" "2025-01-01"] ∧
      s'.categories = [⟨"c2", "expense", "Dining", "Food", 100, false⟩] ∧
      s'.transactions =
        [txn "1" "expense" "a1" "" (-5), txn "2" "expense" "a1" "" (-6),
         { txn "3" "expense" "a1" "" (-7) with categoryId := "c2" }] := by
  obtain ⟨s', h1, h2, h3, h4, _, _⟩ := c6_deleteCategory_nullify
    ⟨[acct "a1" "2025-01-01"],
     [{ txn "1" "expense" "a1" "" (-5) with categoryId := "c1" },
      { txn "2" "expense" "a1" "" (-6) with categoryId := "c1" },
      { txn "3" "expense" "a1" "" (-7) with categoryId := "c2" }],
     [⟨"c1", "expense", "Groceries", "Food", 500, false⟩,
      ⟨"c2", "expense", "Dining", "Food", 100, false⟩]⟩ "c1"
    ⟨⟨"c1", "expense", "Groceries", "Food", 500, false⟩, by decide, rfl⟩
  refine ⟨s', h1, ?_, ?_, ?_⟩
  · rw [h2]
  · rw [h3]; decide
  · rw [h4]; decide

/-! ## Claim C4 -/

lemma foldl_add_amount_init (l : List Transaction) (init : Int) :
    l.foldl (fun s t => s + t.amount) init =
      init + l.foldl (fun s t => s + t.amount) 0 := by
  induction l generalizing init with
  | nil => simp
  | cons t ts ih =>
    simp only [List.foldl_cons]
    rw [ih (init + t.amount), ih (0 + t.amount)]
    ring

lemma calculateWorkingBalance_append_one (accountId : String)
    (l : List Transaction) (t : Transaction) (h : t.accountId = accountId) :
    calculateWorkingBalance accountId (l ++ [t]) =
      calculateWorkingBalance accountId l + t.amount := by
  unfold calculateWorkingBalance
  rw [List.filter_append]
  have hft : [t].filter (fun u => u.accountId == accountId) = [t] := by simp [h]
  rw [hft, List.foldl_append]
  rw [foldl_add_amount_init [t]]
  simp [add_comm]

/-- C4: `createBalanceAdjustment` fails when the discrepancy (reported
balance minus working balance) is zero; otherwise it appends exactly one
movement — income for a positive discrepancy, expense for a negative — whose
amount is exactly the discrepancy, with source `"reconciliation"` and the
fixed description, after which the working balance equals the reported
balance. -/
theorem c4_createBalanceAdjustment_spec (store : DataStore) (accountId : String)
    (reportedBalance : Int) (today now : String)
    (hacc : ∃ a ∈ store.accounts, a.id = accountId) :
    (reportedBalance = calculateWorkingBalance accountId store.transactions →
      createBalanceAdjustment store accountId reportedBalance today now =
        Result.err "No discrepancy to adjust") ∧
    (reportedBalance ≠ calculateWorkingBalance accountId store.transactions →
      ∃ t : Transaction,
        createBalanceAdjustment store accountId reportedBalance today now =
          Result.ok { store with transactions := store.transactions ++ [t] } ∧
        t.accountId = accountId ∧
        t.amount = reportedBalance - calculateWorkingBalance accountId store.transactions ∧
        t.type = (if reportedBalance - calculateWorkingBalance accountId store.transactions > 0
                  then "income" else "expense") ∧
        t.source = "reconciliation" ∧
        t.description = "Balance adjustment" ∧
        calculateWorkingBalance accountId (store.transactions ++ [t]) = reportedBalance) := by
  have hcond : store.accounts.all (fun a => !(a.id == accountId)) ≠ true := by
    intro hall
    obtain ⟨a, ham, haid⟩ := hacc
    have := List.all_eq_true.1 hall a ham
    simp [haid] at this
  constructor
  · intro hzero
    simp only [createBalanceAdjustment]
    rw [if_neg hcond,
      if_pos (show reportedBalance - calculateWorkingBalance accountId store.transactions = 0
        by omega)]
  · intro hne
    refine ⟨{ id := nextId (store.transactions.map (fun t => t.id))
              type := if reportedBalance -
                  calculateWorkingBalance accountId store.transactions > 0
                then "income" else "expense"
              accountId := accountId
              date := today
              categoryId := ""
              description := "Balance adjustment"
              payee := ""
              transferPairId := ""
              amount := reportedBalance - calculateWorkingBalance accountId store.transactions
              notes := ""
              source := "reconciliation"
              createdAt := now }, ?_, rfl, rfl, rfl, rfl, rfl, ?_⟩
    · simp only [createBalanceAdjustment]
      rw [if_neg hcond,
        if_neg (show ¬(reportedBalance -
          calculateWorkingBalance accountId store.transactions = 0) by omega)]
    · rw [calculateWorkingBalance_append_one accountId store.transactions _ rfl]
      show calculateWorkingBalance accountId store.transactions +
        (reportedBalance - calculateWorkingBalance accountId store.transactions) =
        reportedBalance
      omega

/-- C4 witness: a positive discrepancy of 200 synthesizes one income
adjustment for exactly 200, after which the working balance matches. -/
theorem c4_createBalanceAdjustment_spec_witness :
    ((300 : Int) = calculateWorkingBalance "a1" [txn "1" "expense" "a1" "" 300] →
      createBalanceAdjustment ⟨[acct "a1" ""], [txn "1" "expense" "a1" "" 300], []⟩
        "a1" 300 "2025-02-01" "now" = Result.err "No discrepancy to adjust") ∧
    ∃ t : Transaction,
      createBalanceAdjustment ⟨[acct "a1" ""], [txn "1" "expense" "a1" "" 300], []⟩
          "a1" 500 "2025-02-01" "now" =
        Result.ok { accounts := [acct "a1" ""],
                    transactions := [txn "1" "expense" "a1" "" 300] ++ [t],
                    categories := [] } ∧
      t.amount = 500 - calculateWorkingBalance "a1" [txn "1" "expense" "a1" "" 300] ∧
      t.source = "reconciliation" := by
  constructor
  · exact (c4_createBalanceAdjustment_spec ⟨[acct "a1" ""], [txn "1" "expense" "a1" "" 300], []⟩
      "a1" 300 "2025-02-01" "now" ⟨acct "a1" "", by decide, rfl⟩).1
  · obtain ⟨t, h1, _, h3, _, h5, _, _⟩ :=
      (c4_createBalanceAdjustment_spec ⟨[acct "a1" ""], [txn "1" "expense" "a1" "" 300], []⟩
        "a1" 500 "2025-02-01" "now" ⟨acct "a1" "", by decide, rfl⟩).2 (by decide)
    exact ⟨t, h1, h3, h5⟩

/-! ## Lemmas: reconciled clearing and first-match updates -/

lemma clearReconciled_twice (accs : List Account) (x y : String) :
    clearReconciledForAccount (clearReconciledForAccount accs x) y =
      accs.map (fun a =>
        if (a.id = x ∨ a.id = y) ∧ a.reconciled ≠ "" then { a with reconciled := "" }
        else a) := by
  unfold clearReconciledForAccount
  rw [List.map_map]
  apply List.map_congr_left
  intro a _
  simp only [Function.comp_apply]
  by_cases hrec : a.reconciled = ""
  · have h1 : (if a.id = x ∧ a.reconciled ≠ "" then { a with reconciled := "" } else a) = a :=
      if_neg (fun h => h.2 hrec)
    rw [h1, if_neg (fun h => h.2 hrec), if_neg (fun h => h.2 hrec)]
  · by_cases hx : a.id = x
    · have h1 : (if a.id = x ∧ a.reconciled ≠ "" then { a with reconciled := "" } else a) =
          { a with reconciled := "" } := if_pos ⟨hx, hrec⟩
      rw [h1, if_neg (fun h => h.2 rfl), if_pos ⟨Or.inl hx, hrec⟩]
    · have h1 : (if a.id = x ∧ a.reconciled ≠ "" then { a with reconciled := "" } else a) = a :=
        if_neg (fun h => hx h.1)
      rw [h1]
      by_cases hy : a.id = y
      · rw [if_pos ⟨hy, hrec⟩, if_pos ⟨Or.inr hy, hrec⟩]
      · rw [if_neg (fun h => hy h.1), if_neg (fun h => h.1.elim hx hy)]

lemma updateFirst_eq_map_of_nodup (l : List Transaction) (x : String)
    (f : Transaction → Transaction)
    (h : (l.map (fun u => u.id)).Nodup) :
    updateFirst (fun u => u.id == x) f l =
      l.map (fun u => if u.id = x then f u else u) := by
  induction l with
  | nil => rfl
  | cons a as ih =>
    simp only [List.map_cons, List.nodup_cons] at h
    obtain ⟨hnot, hnodup2⟩ := h
    by_cases hax : a.id = x
    · rw [updateFirst, if_pos (by simp [hax]), List.map_cons, if_pos hax]
      congr 1
      have hall : ∀ u ∈ as, (if u.id = x then f u else u) = u := by
        intro u hu
        apply if_neg
        intro he
        exact hnot (by rw [hax, ← he]; exact List.mem_map_of_mem _ hu)
      rw [List.map_congr_left hall, List.map_id']
    · rw [updateFirst, if_neg (by simp [hax]), List.map_cons, if_neg hax]
      congr 1
      exact ih hnodup2

/-! ## Claim C5 -/

/-- C5: deleting a movement with a non-empty `transferPairId` succeeds and
removes exactly the movement and (when it exists) its pair — a movement
survives iff its id is neither — leaving categories untouched and clearing
`reconciled` exactly on the accounts owning the removed movements. -/
theorem c5_deleteTransaction_cascade (store : DataStore) (id : String)
    (t : Transaction)
    (hfind : store.transactions.find? (fun u => u.id == id) = some t)
    (hpair : t.transferPairId ≠ "") :
    ∃ s', deleteTransaction store id = Result.ok s' ∧
      s'.categories = store.categories ∧
      (∀ u, u ∈ s'.transactions ↔
        u ∈ store.transactions ∧ ¬(u.id = t.id ∨ u.id = t.transferPairId)) ∧
      s'.accounts = store.accounts.map (fun a =>
        if (a.id = t.accountId ∨
            (store.transactions.find? (fun u => u.id == t.transferPairId)).map
              (fun q => q.accountId) = some a.id) ∧ a.reconciled ≠ "" then
          { a with reconciled := "" }
        else a) := by
  have htid : t.id = id := by
    have := List.find?_some hfind
    simpa using this
  have hcontains : ∀ x : String, (([id, t.transferPairId].contains x) = true) ↔
      (x = id ∨ x = t.transferPairId) := by
    intro x
    show ([id, t.transferPairId].elem x = true) ↔ _
    rw [List.elem_iff]
    simp
  simp only [deleteTransaction, hfind]
  rw [if_pos hpair]
  refine ⟨_, rfl, rfl, ?_, ?_⟩
  · intro u
    rw [List.mem_filter]
    constructor
    · rintro ⟨hm, hp⟩
      refine ⟨hm, ?_⟩
      intro hbad
      rw [htid] at hbad
      rw [(hcontains u.id).2 hbad] at hp
      simp at hp
    · rintro ⟨hm, hni⟩
      refine ⟨hm, ?_⟩
      rw [htid] at hni
      cases hcb : ([id, t.transferPairId].contains u.id) with
      | false => rfl
      | true => exact absurd ((hcontains u.id).1 hcb) hni
  · cases hfp : store.transactions.find? (fun u => u.id == t.transferPairId) with
    | none =>
      have haff : List.filterMap (fun tid =>
          (store.transactions.find? (fun tx => tx.id == tid)).map
            (fun u => u.accountId)) [id, t.transferPairId] = [t.accountId] := by
        simp [List.filterMap_cons, hfind, hfp]
      rw [haff]
      show clearReconciledForAccount store.accounts t.accountId = _
      unfold clearReconciledForAccount
      apply List.map_congr_left
      intro a _
      simp
    | some q =>
      have haff : List.filterMap (fun tid =>
          (store.transactions.find? (fun tx => tx.id == tid)).map
            (fun u => u.accountId)) [id, t.transferPairId] =
          [t.accountId, q.accountId] := by
        simp [List.filterMap_cons, hfind, hfp]
      rw [haff]
      show clearReconciledForAccount
        (clearReconciledForAccount store.accounts t.accountId) q.accountId = _
      rw [clearReconciled_twice]
      apply List.map_congr_left
      intro a _
      have heq : (a.id = t.accountId ∨ a.id = q.accountId) ↔
          (a.id = t.accountId ∨ some q.accountId = some a.id) := by
        constructor
        · rintro (h | h)
          · exact Or.inl h
          · exact Or.inr (by rw [h])
        · rintro (h | h)
          · exact Or.inl h
          · exact Or.inr (by injection h with h2; rw [h2])
      by_cases hc : (a.id = t.accountId ∨ a.id = q.accountId) ∧ a.reconciled ≠ ""
      · rw [if_pos hc, if_pos ⟨heq.1 hc.1, hc.2⟩]
      · rw [if_neg hc, if_neg (by
          intro hc2
          exact hc ⟨heq.2 hc2.1, hc2.2⟩)]

/-- C5 witness: deleting one side of a transfer pair removes both sides,
leaves the unrelated movement, and clears both reconciled dates. -/
theorem c5_deleteTransaction_cascade_witness :
    ∃ s', deleteTransaction
        ⟨[acct "a1" "2025-02-01", acct "a2" "2025-02-01"],
         [txn "t1" "transfer" "a1" "t2" (-100), txn "t2" "transfer" "a2" "t1" 100,
          txn "t3" "expense" "a1" "" (-50)], []⟩ "t1" = Result.ok s' ∧
      (txn "t3" "expense" "a1" "" (-50) ∈ s'.transactions ∧
        txn "t1" "transfer" "a1" "t2" (-100) ∉ s'.transactions ∧
        txn "t2" "transfer" "a2" "t1" 100 ∉ s'.transactions) := by
  obtain ⟨s', h1, _, h3, _⟩ := c5_deleteTransaction_cascade
    ⟨[acct "a1" "2025-02-01", acct "a2" "2025-02-01"],
     [txn "t1" "transfer" "a1" "t2" (-100), txn "t2" "transfer" "a2" "t1" 100,
      txn "t3" "expense" "a1" "" (-50)], []⟩ "t1"
    (txn "t1" "transfer" "a1" "t2" (-100)) (by decide) (by decide)
  refine ⟨s', h1, (h3 _).2 ⟨by decide, by decide⟩, ?_, ?_⟩
  · intro hbad
    exact absurd ((h3 _).1 hbad).2 (by decide)
  · intro hbad
    exact absurd ((h3 _).1 hbad).2 (by decide)

/-! ## Claim C10 -/

/-- C10: `unlinkTransfer` tolerates a dangling pair reference — when the
movement's `transferPairId` names no existing movement, the operation still
succeeds, converting exactly the target to the requested kind with its pair
link cleared, deleting no movement, and clearing `reconciled` only on the
movement's own account. -/
theorem c10_unlinkTransfer_dangling (store : DataStore) (id newType : String)
    (t : Transaction)
    (hnodup : (store.transactions.map (fun u => u.id)).Nodup)
    (hfind : store.transactions.find? (fun u => u.id == id) = some t)
    (hpair : t.transferPairId ≠ "")
    (hdangling : ∀ u ∈ store.transactions, u.id ≠ t.transferPairId) :
    ∃ s', unlinkTransfer store id newType = Result.ok s' ∧
      s'.transactions = store.transactions.map (fun u =>
        if u.id = id then { u with type := newType, transferPairId := "" } else u) ∧
      s'.accounts = store.accounts.map (fun a =>
        if a.id = t.accountId ∧ a.reconciled ≠ "" then { a with reconciled := "" }
        else a) ∧
      s'.categories = store.categories := by
  have hfp : store.transactions.find? (fun u => u.id == t.transferPairId) = none :=
    List.find?_eq_none.2 (fun u hu => by simp [hdangling u hu])
  have hfilter : store.transactions.filter (fun u => !(u.id == t.transferPairId)) =
      store.transactions :=
    List.filter_eq_self.2 (fun u hu => by simp [hdangling u hu])
  simp only [unlinkTransfer, hfind]
  rw [if_neg hpair]
  simp only [hfp, hfilter]
  refine ⟨_, rfl, ?_, ?_, rfl⟩
  · exact updateFirst_eq_map_of_nodup store.transactions id _ hnodup
  · apply List.map_congr_left
    intro a _
    simp

/-- C10 witness: a transfer movement whose pair id resolves to nothing is
still unlinked, nothing else is deleted, and only its own account is
cleared. -/
theorem c10_unlinkTransfer_dangling_witness :
    ∃ s', unlinkTransfer
        ⟨[acct "a1" "2025-02-01", acct "a2" "2025-02-01"],
         [txn "t1" "transfer" "a1" "nonexistent" (-5), txn "t9" "expense" "a2" "" 4],
         []⟩ "t1" "expense" = Result.ok s' ∧
      s'.transactions =
        [txn "t1" "expense" "a1" "" (-5), txn "t9" "expense" "a2" "" 4] ∧
      s'.accounts = [acct "a1" "", acct "a2" "2025-02-01"] := by
  obtain ⟨s', h1, h2, h3, _⟩ := c10_unlinkTransfer_dangling
    ⟨[acct "a1" "2025-02-01", acct "a2" "2025-02-01"],
     [txn "t1" "transfer" "a1" "nonexistent" (-5), txn "t9" "expense" "a2" "" 4], []⟩
    "t1" "expense" (txn "t1" "transfer" "a1" "nonexistent" (-5))
    (by decide) (by decide) (by decide) (by decide)
  refine ⟨s', h1, ?_, ?_⟩
  · rw [h2]; decide
  · rw [h3]; decide

/-! ## Claim C2 -/

/-- A store whose transfer movement `"1"` has a resolving pair `"2"` that is
NOT marked as a transfer (`type = "income"`): corrupted pair data. -/
def c2Store : DataStore :=
  ⟨[acct "a1" "2025-01-01", acct "a2" "2025-01-01"],
   [txn "1" "transfer" "a1" "2" (-5), txn "2" "income" "a2" "1" 5], []⟩

/-- C2 counterexample: the pair of movement `"1"` exists but is not marked
as a transfer, yet `syncTransferAmount` succeeds (returning the synced
store) instead of rejecting with a corruption error. -/
theorem c2_sync_no_corruption_check :
    (∃ pairRec ∈ c2Store.transactions, pairRec.id = "2" ∧ pairRec.type = "income") ∧
    syncTransferAmount c2Store "1" (-7) =
      Result.ok ⟨[acct "a1" "", acct "a2" ""],
                 [txn "1" "transfer" "a1" "2" (-7), txn "2" "income" "a2" "1" 7],
                 []⟩ := by
  constructor
  · exact ⟨txn "2" "income" "a2" "1" 5, by decide, rfl, rfl⟩
  · decide

/-- C2 (amended): `syncTransferAmount` rejects a missing movement, a
movement whose `transferPairId` is empty (reported as "not a transfer"),
and an unresolvable pair; it performs no kind checks (see the
counterexample), so whenever the pair link resolves it succeeds, setting
the target's amount to `newAmount`, the pair's to the negation, and
clearing `reconciled` on both owning accounts. -/
theorem c2_syncTransferAmount_behavior (store : DataStore) (id : String)
    (newAmount : Int) :
    (store.transactions.find? (fun u => u.id == id) = none →
      syncTransferAmount store id newAmount =
        Result.err ("Transaction not found: " ++ id)) ∧
    (∀ t, store.transactions.find? (fun u => u.id == id) = some t →
      t.transferPairId = "" →
      syncTransferAmount store id newAmount =
        Result.err ("Transaction " ++ id ++ " is not a transfer")) ∧
    (∀ t, store.transactions.find? (fun u => u.id == id) = some t →
      t.transferPairId ≠ "" →
      store.transactions.find? (fun u => u.id == t.transferPairId) = none →
      syncTransferAmount store id newAmount =
        Result.err ("Transfer pair not found: " ++ t.transferPairId)) ∧
    (∀ t p, store.transactions.find? (fun u => u.id == id) = some t →
      t.transferPairId ≠ "" →
      store.transactions.find? (fun u => u.id == t.transferPairId) = some p →
      (store.transactions.map (fun u => u.id)).Nodup →
      t.transferPairId ≠ t.id →
      ∃ s', syncTransferAmount store id newAmount = Result.ok s' ∧
        s'.transactions = store.transactions.map (fun u =>
          if u.id = id then { u with amount := newAmount }
          else if u.id = t.transferPairId then { u with amount := -newAmount }
          else u) ∧
        s'.accounts = store.accounts.map (fun a =>
          if (a.id = t.accountId ∨ a.id = p.accountId) ∧ a.reconciled ≠ "" then
            { a with reconciled := "" }
          else a) ∧
        s'.categories = store.categories) := by
  refine ⟨?_, ?_, ?_, ?_⟩
  · intro h
    simp only [syncTransferAmount, h]
  · intro t hf hpe
    simp only [syncTransferAmount, hf]
    rw [if_pos hpe]
  · intro t hf hpne hfp
    simp only [syncTransferAmount, hf]
    rw [if_neg hpne]
    simp only [hfp]
  · intro t p hf hpne hfp hnodup hne
    have htid : t.id = id := by
      have := List.find?_some hf
      simpa using this
    have hneid : t.transferPairId ≠ id := fun h => hne (h.trans htid.symm)
    simp only [syncTransferAmount, hf]
    rw [if_neg hpne]
    simp only [hfp]
    refine ⟨_, rfl, ?_, rfl, rfl⟩
    rw [updateFirst_eq_map_of_nodup store.transactions id _ hnodup]
    have hids : (store.transactions.map (fun u =>
        if u.id = id then { u with amount := newAmount } else u)).map
          (fun u => u.id) = store.transactions.map (fun u => u.id) := by
      rw [List.map_map]
      apply List.map_congr_left
      intro u _
      simp only [Function.comp_apply]
      by_cases h : u.id = id
      · rw [if_pos h]
      · rw [if_neg h]
    rw [updateFirst_eq_map_of_nodup _ _ _ (by rw [hids]; exact hnodup)]
    rw [List.map_map]
    apply List.map_congr_left
    intro u _
    simp only [Function.comp_apply]
    by_cases h1 : u.id = id
    · simp [h1, Ne.symm hneid]
    · by_cases h2 : u.id = t.transferPairId
      · simp [h1, h2, hneid]
      · simp [h1, h2]

/-- A store with a well-formed transfer pair for the C2 success witness. -/
def c2GoodStore : DataStore :=
  ⟨[acct "a1" "2025-01-01", acct "a2" "2025-01-01"],
   [txn "1" "transfer" "a1" "2" (-5), txn "2" "transfer" "a2" "1" 5], []⟩

/-- C2 witness: syncing a well-formed pair at a concrete store. -/
theorem c2_syncTransferAmount_behavior_witness :
    ∃ s', syncTransferAmount c2GoodStore "1" (-7) = Result.ok s' ∧
      s'.transactions = c2GoodStore.transactions.map (fun u =>
        if u.id = "1" then { u with amount := (-7 : Int) }
        else if u.id = "2" then { u with amount := -(-7 : Int) }
        else u) ∧
      s'.accounts = c2GoodStore.accounts.map (fun a =>
        if (a.id = "a1" ∨ a.id = "a2") ∧ a.reconciled ≠ "" then
          { a with reconciled := "" }
        else a) ∧
      s'.categories = c2GoodStore.categories :=
  (c2_syncTransferAmount_behavior c2GoodStore "1" (-7)).2.2.2
    (txn "1" "transfer" "a1" "2" (-5)) (txn "2" "transfer" "a2" "1" 5)
    (by decide) (by decide) (by decide) (by decide) (by decide)

/-! ## Claim C9 — helper lemmas about reconciled-clearing maps -/

lemma clear_step (P : Account → Prop) [DecidablePred P] (x : Account)
    (hP : P x) :
    (if P x ∧ x.reconciled ≠ "" then { x with reconciled := "" }
     else x).reconciled = "" := by
  by_cases hr : x.reconciled = ""
  · rw [if_neg (fun h => h.2 hr)]
    exact hr
  · rw [if_pos ⟨hP, hr⟩]

lemma clear_id (P : Account → Prop) [DecidablePred P] (x : Account) :
    (if P x ∧ x.reconciled ≠ "" then { x with reconciled := "" }
     else x).id = x.id := by
  by_cases h : P x ∧ x.reconciled ≠ ""
  · rw [if_pos h]
  · rw [if_neg h]

lemma mem_clear_map (P : Account → Prop) [DecidablePred P]
    (accs : List Account) (a : Account)
    (ha : a ∈ accs.map (fun x =>
      if P x ∧ x.reconciled ≠ "" then { x with reconciled := "" } else x))
    (hP : ∀ x : Account, x.id = a.id → P x) : a.reconciled = "" := by
  obtain ⟨x, hx, hfa⟩ := List.mem_map.1 ha
  subst hfa
  exact clear_step P x (hP x (clear_id P x).symm)

lemma mem_clearReconciledForAccount (accs : List Account) (aid : String)
    (a : Account) (ha : a ∈ clearReconciledForAccount accs aid)
    (hid : a.id = aid) : a.reconciled = "" :=
  mem_clear_map (fun x => x.id = aid) accs a ha (fun x hx => hx.trans hid)

lemma clearReconciled_preserves (accs : List Account) (y z : String)
    (h : ∀ b ∈ accs, b.id = z → b.reconciled = "") :
    ∀ b ∈ clearReconciledForAccount accs y, b.id = z → b.reconciled = "" := by
  intro b hb hbz
  unfold clearReconciledForAccount at hb
  obtain ⟨x, hx, hfb⟩ := List.mem_map.1 hb
  subst hfb
  by_cases hc : x.id = y ∧ x.reconciled ≠ ""
  · rw [if_pos hc]
  · rw [if_neg hc] at hbz ⊢
    exact h x hx hbz

lemma foldl_clear_preserves (L : List String) :
    ∀ (accs : List Account) (z : String),
      (∀ b ∈ accs, b.id = z → b.reconciled = "") →
      ∀ b ∈ L.foldl (fun accs aid => clearReconciledForAccount accs aid) accs,
        b.id = z → b.reconciled = "" := by
  induction L with
  | nil =>
    intro accs z h b hb hbz
    exact h b hb hbz
  | cons y ys ih =>
    intro accs z h b hb hbz
    exact ih (clearReconciledForAccount accs y) z
      (clearReconciled_preserves accs y z h) b hb hbz

lemma foldl_clear_mem (L : List String) :
    ∀ (accs : List Account) (z : String), z ∈ L →
      ∀ b ∈ L.foldl (fun accs aid => clearReconciledForAccount accs aid) accs,
        b.id = z → b.reconciled = "" := by
  induction L with
  | nil =>
    intro accs z hz
    exact absurd hz (List.not_mem_nil z)
  | cons y ys ih =>
    intro accs z hz b hb hbz
    rcases List.mem_cons.1 hz with h | h
    · exact foldl_clear_preserves ys (clearReconciledForAccount accs y) z
        (fun c hc hcz =>
          mem_clearReconciledForAccount accs y c hc (hcz.trans h)) b hb hbz
    · exact ih (clearReconciledForAccount accs y) z h b hb hbz

/-- C9: every successful operation that changes which movements are
attributed to an account clears that account's `reconciled` field:
creating a movement clears its account; updating clears the movement's
account and, when the account is changed, also the new one; deleting
clears the movement's account and (when a pair resolves) the pair's;
a bulk import that changed the transaction list clears the target
account; creating a transfer clears both accounts; syncing a transfer
amount clears both owners' accounts; unlinking clears the movement's
account and, when the pair resolves, the pair's account. -/
theorem c9_auto_clear_reconciled :
    (∀ (store : DataStore) (data : CreateTransactionInput) (now : String)
        (s' : DataStore),
      createTransaction store data now = Result.ok s' →
      ∀ a ∈ s'.accounts, a.id = data.accountId → a.reconciled = "") ∧
    (∀ (store : DataStore) (id : String) (changes : UpdateTransactionInput)
        (t : Transaction) (s' : DataStore),
      store.transactions.find? (fun u => u.id == id) = some t →
      updateTransaction store id changes = Result.ok s' →
      (∀ a ∈ s'.accounts, a.id = t.accountId → a.reconciled = "") ∧
      (∀ newAcc, changes.accountId = some newAcc →
        ∀ a ∈ s'.accounts, a.id = newAcc → a.reconciled = "")) ∧
    (∀ (store : DataStore) (id : String) (t : Transaction) (s' : DataStore),
      store.transactions.find? (fun u => u.id == id) = some t →
      deleteTransaction store id = Result.ok s' →
      (∀ a ∈ s'.accounts, a.id = t.accountId → a.reconciled = "") ∧
      (∀ p, t.transferPairId ≠ "" →
        store.transactions.find? (fun u => u.id == t.transferPairId) = some p →
        ∀ a ∈ s'.accounts, a.id = p.accountId → a.reconciled = "")) ∧
    (∀ (store : DataStore) (accountId : String)
        (candidates : List BulkCandidate) (now : String) (s' : DataStore),
      bulkImportTransactions store accountId candidates now = Result.ok s' →
      s'.transactions ≠ store.transactions →
      ∀ a ∈ s'.accounts, a.id = accountId → a.reconciled = "") ∧
    (∀ (store : DataStore) (data : CreateTransferInput) (now : String)
        (s' : DataStore),
      createTransfer store data now = Result.ok s' →
      ∀ a ∈ s'.accounts,
        a.id = data.fromAccountId ∨ a.id = data.toAccountId →
        a.reconciled = "") ∧
    (∀ (store : DataStore) (id : String) (newAmount : Int)
        (t p : Transaction) (s' : DataStore),
      store.transactions.find? (fun u => u.id == id) = some t →
      store.transactions.find? (fun u => u.id == t.transferPairId) = some p →
      syncTransferAmount store id newAmount = Result.ok s' →
      ∀ a ∈ s'.accounts, a.id = t.accountId ∨ a.id = p.accountId →
        a.reconciled = "") ∧
    (∀ (store : DataStore) (id newType : String) (t : Transaction)
        (s' : DataStore),
      store.transactions.find? (fun u => u.id == id) = some t →
      unlinkTransfer store id newType = Result.ok s' →
      (∀ a ∈ s'.accounts, a.id = t.accountId → a.reconciled = "") ∧
      (∀ q, store.transactions.find? (fun u => u.id == t.transferPairId) =
          some q →
        ∀ a ∈ s'.accounts, a.id = q.accountId → a.reconciled = "")) := by
  refine ⟨?_, ?_, ?_, ?_, ?_, ?_, ?_⟩
  · -- createTransaction
    intro store data now s' hres a ha hid
    simp only [createTransaction] at hres
    repeat' split at hres
    all_goals try exact absurd hres (fun h => Result.noConfusion h)
    injection hres with h
    subst h
    exact mem_clearReconciledForAccount _ _ a ha hid
  · -- updateTransaction
    intro store id changes t s' hfind hres
    simp only [updateTransaction, hfind] at hres
    repeat' split at hres
    all_goals try exact absurd hres (fun h => Result.noConfusion h)
    · rename_i n heq hne
      injection hres with h
      subst h
      constructor
      · intro a ha hid
        exact clearReconciled_preserves _ n t.accountId
          (fun b hb hbz =>
            mem_clearReconciledForAccount store.accounts t.accountId b hb hbz)
          a ha hid
      · intro newAcc hch a ha hid
        rw [heq] at hch
        injection hch with hn
        subst hn
        exact mem_clearReconciledForAccount _ n a ha hid
    · rename_i n heq hne
      injection hres with h
      subst h
      have hnt : n = t.accountId := not_not.1 hne
      constructor
      · intro a ha hid
        exact mem_clearReconciledForAccount _ _ a ha hid
      · intro newAcc hch a ha hid
        rw [heq] at hch
        injection hch with hn
        subst hn
        exact mem_clearReconciledForAccount _ _ a ha (hid.trans hnt)
    · rename_i heq
      injection hres with h
      subst h
      constructor
      · intro a ha hid
        exact mem_clearReconciledForAccount _ _ a ha hid
      · intro newAcc hch
        rw [heq] at hch
        exact absurd hch (fun h => Option.noConfusion h)
  · -- deleteTransaction
    intro store id t s' hfind hres
    simp only [deleteTransaction, hfind] at hres
    injection hres with h
    subst h
    constructor
    · intro a ha hid
      have hmem : t.accountId ∈
          (id :: (if t.transferPairId ≠ "" then [t.transferPairId] else [])).filterMap
            (fun tid => (store.transactions.find? (fun tx => tx.id == tid)).map
              (fun u => u.accountId)) := by
        simp [List.filterMap_cons, hfind]
      exact foldl_clear_mem _ store.accounts t.accountId hmem a ha hid
    · intro p hpne hfp a ha hid
      have hmem : p.accountId ∈
          (id :: (if t.transferPairId ≠ "" then [t.transferPairId] else [])).filterMap
            (fun tid => (store.transactions.find? (fun tx => tx.id == tid)).map
              (fun u => u.accountId)) := by
        rw [if_pos hpne]
        simp [hfind, hfp]
      exact foldl_clear_mem _ store.accounts p.accountId hmem a ha hid
  · -- bulkImportTransactions
    intro store accountId candidates now s' hres hneq a ha hid
    simp only [bulkImportTransactions] at hres
    repeat' split at hres
    all_goals try exact absurd hres (fun h => Result.noConfusion h)
    · injection hres with h
      subst h
      exact absurd rfl hneq
    · injection hres with h
      subst h
      exact mem_clearReconciledForAccount _ _ a ha hid
  · -- createTransfer
    intro store data now s' hres a ha hor
    simp only [createTransfer] at hres
    repeat' split at hres
    all_goals try exact absurd hres (fun h => Result.noConfusion h)
    injection hres with h
    subst h
    exact mem_clear_map
      (fun x => x.id = data.fromAccountId ∨ x.id = data.toAccountId)
      store.accounts a ha (fun x hx => by
        show x.id = data.fromAccountId ∨ x.id = data.toAccountId
        rw [hx]
        exact hor)
  · -- syncTransferAmount
    intro store id newAmount t p s' hfindt hfindp hres a ha hor
    simp only [syncTransferAmount, hfindt, hfindp] at hres
    split at hres
    · exact absurd hres (fun h => Result.noConfusion h)
    · injection hres with h
      subst h
      exact mem_clear_map (fun x => x.id = t.accountId ∨ x.id = p.accountId)
        store.accounts a ha (fun x hx => by
          show x.id = t.accountId ∨ x.id = p.accountId
          rw [hx]
          exact hor)
  · -- unlinkTransfer
    intro store id newType t s' hfindt hres
    simp only [unlinkTransfer, hfindt] at hres
    split at hres
    · exact absurd hres (fun h => Result.noConfusion h)
    · injection hres with h
      subst h
      constructor
      · intro a ha hid
        exact mem_clear_map
          (fun x => x.id = t.accountId ∨
            (store.transactions.find? (fun u => u.id == t.transferPairId)).map
              (fun w => w.accountId) = some x.id)
          store.accounts a ha (fun x hx => Or.inl (hx.trans hid))
      · intro q hfq a ha hid
        refine mem_clear_map
          (fun x => x.id = t.accountId ∨
            (store.transactions.find? (fun u => u.id == t.transferPairId)).map
              (fun w => w.accountId) = some x.id)
          store.accounts a ha (fun x hx => Or.inr ?_)
        rw [hfq]
        show some q.accountId = some x.id
        exact congrArg some (hx.trans hid).symm

/-! ## Claim C8 -/

/-- C8 counterexample: bulk import is NOT idempotent.  The deduplication
key uses the candidate's raw description, but the stored record's
description is trimmed; re-importing a batch whose description has
leading whitespace therefore adds the movement a second time. -/
theorem c8_import_not_idempotent :
    bulkImportTransactions ⟨[acct "a1" ""], [], []⟩ "a1"
        [⟨"expense", "2025-01-15", none, some " x", none, -5, none, none⟩]
        "" =
      Result.ok ⟨[acct "a1" ""],
        [⟨"1", "expense", "a1", "2025-01-15", "", "x", "", "", -5, "",
          "import", ""⟩], []⟩ ∧
    bulkImportTransactions
        ⟨[acct "a1" ""],
          [⟨"1", "expense", "a1", "2025-01-15", "", "x", "", "", -5, "",
            "import", ""⟩], []⟩ "a1"
        [⟨"expense", "2025-01-15", none, some " x", none, -5, none, none⟩]
        "" =
      Result.ok ⟨[acct "a1" ""],
        [⟨"1", "expense", "a1", "2025-01-15", "", "x", "", "", -5, "",
          "import", ""⟩,
         ⟨"2", "expense", "a1", "2025-01-15", "", "x", "", "", -5, "",
          "import", ""⟩], []⟩ :=
  ⟨by decide, by decide⟩

lemma contains_iff (l : List String) (x : String) :
    l.contains x = true ↔ x ∈ l := by
  show l.elem x = true ↔ x ∈ l
  rw [List.elem_iff]

lemma bulkImportLoop_eq_nil (store : DataStore)
    (accountId reconciledDate now : String) :
    ∀ (batch : List BulkCandidate) (keys : List String) (n : Int),
      (∀ c ∈ batch,
        (validateTransaction c.type accountId c.date c.amount).valid = true →
        deduplicationKey c.date accountId c.amount (c.description.getD "") ∈
          keys) →
      bulkImportLoop store accountId reconciledDate now batch keys n = [] := by
  intro batch
  induction batch with
  | nil =>
    intro keys n _
    rfl
  | cons c cs ih =>
    intro keys n h
    simp only [bulkImportLoop]
    by_cases hd : reconciledDate ≠ "" ∧ jsStrLt c.date.data reconciledDate.data
    · rw [if_pos hd]
      exact ih keys n (fun x hx hv => h x (List.mem_cons_of_mem c hx) hv)
    · rw [if_neg hd]
      rcases hval : (validateTransaction c.type accountId c.date c.amount).valid
        with _ | _
      · rw [if_pos (by rfl)]
        exact ih keys n (fun x hx hv => h x (List.mem_cons_of_mem c hx) hv)
      · rw [if_neg (by simp)]
        rw [if_pos ((contains_iff keys _).2
          (h c (List.mem_cons_self c cs) hval))]
        exact ih keys n (fun x hx hv => h x (List.mem_cons_of_mem c hx) hv)

lemma bulkImportLoop_nil_now (store : DataStore)
    (accountId reconciledDate now1 now2 : String) :
    ∀ (batch : List BulkCandidate) (keys : List String) (n : Int),
      bulkImportLoop store accountId reconciledDate now1 batch keys n = [] →
      bulkImportLoop store accountId reconciledDate now2 batch keys n = [] := by
  intro batch
  induction batch with
  | nil =>
    intro keys n _
    rfl
  | cons c cs ih =>
    intro keys n h
    simp only [bulkImportLoop] at h ⊢
    by_cases hd : reconciledDate ≠ "" ∧ jsStrLt c.date.data reconciledDate.data
    · rw [if_pos hd] at h ⊢
      exact ih keys n h
    · rw [if_neg hd] at h ⊢
      rcases hval : (validateTransaction c.type accountId c.date c.amount).valid
        with _ | _
      · rw [hval] at h
        rw [if_pos (by rfl)] at h ⊢
        exact ih keys n h
      · rw [hval] at h
        rw [if_neg (by simp)] at h ⊢
        by_cases hk : keys.contains
            (deduplicationKey c.date accountId c.amount
              (c.description.getD "")) = true
        · rw [if_pos hk] at h ⊢
          exact ih keys n h
        · rw [if_neg hk] at h
          exact absurd h (List.cons_ne_nil _ _)

lemma bulkImportLoop_accountId (store : DataStore)
    (accountId reconciledDate now : String) :
    ∀ (batch : List BulkCandidate) (keys : List String) (n : Int),
      ∀ t ∈ bulkImportLoop store accountId reconciledDate now batch keys n,
        t.accountId = accountId := by
  intro batch
  induction batch with
  | nil =>
    intro keys n t ht
    exact absurd ht (List.not_mem_nil t)
  | cons c cs ih =>
    intro keys n t ht
    simp only [bulkImportLoop] at ht
    by_cases hd : reconciledDate ≠ "" ∧ jsStrLt c.date.data reconciledDate.data
    · rw [if_pos hd] at ht
      exact ih keys n t ht
    · rw [if_neg hd] at ht
      rcases hval : (validateTransaction c.type accountId c.date c.amount).valid
        with _ | _
      · rw [hval] at ht
        rw [if_pos (by rfl)] at ht
        exact ih keys n t ht
      · rw [hval] at ht
        rw [if_neg (by simp)] at ht
        by_cases hk : keys.contains
            (deduplicationKey c.date accountId c.amount
              (c.description.getD "")) = true
        · rw [if_pos hk] at ht
          exact ih keys n t ht
        · rw [if_neg hk] at ht
          rcases List.mem_cons.1 ht with h | h
          · rw [h]
          · exact ih (keys ++ [deduplicationKey c.date accountId c.amount
              (c.description.getD "")]) (n + 1) t h

lemma bulkImportLoop_covers (store : DataStore)
    (accountId reconciledDate now : String) :
    ∀ (batch : List BulkCandidate) (keys : List String) (n : Int),
      (∀ c ∈ batch,
        ¬(reconciledDate ≠ "" ∧ jsStrLt c.date.data reconciledDate.data)) →
      (∀ c ∈ batch,
        (c.description.map (fun s => jsTrim s)).getD "" =
          c.description.getD "") →
      ∀ c ∈ batch,
        (validateTransaction c.type accountId c.date c.amount).valid = true →
        deduplicationKey c.date accountId c.amount (c.description.getD "") ∈
          keys ++
            (bulkImportLoop store accountId reconciledDate now batch keys
              n).map
              (fun t => deduplicationKey t.date t.accountId t.amount
                t.description) := by
  intro batch
  induction batch with
  | nil =>
    intro keys n _ _ c hc
    exact absurd hc (List.not_mem_nil c)
  | cons c0 cs ih =>
    intro keys n hskip htrim c hc hval
    simp only [bulkImportLoop]
    rw [if_neg (hskip c0 (List.mem_cons_self c0 cs))]
    rcases hval0 : (validateTransaction c0.type accountId c0.date
        c0.amount).valid with _ | _
    · rw [if_pos (by rfl)]
      rcases List.mem_cons.1 hc with h | h
      · rw [h] at hval
        rw [hval] at hval0
        exact Bool.noConfusion hval0
      · exact ih keys n (fun x hx => hskip x (List.mem_cons_of_mem c0 hx))
          (fun x hx => htrim x (List.mem_cons_of_mem c0 hx)) c h hval
    · rw [if_neg (by simp)]
      by_cases hk : keys.contains
          (deduplicationKey c0.date accountId c0.amount
            (c0.description.getD "")) = true
      · rw [if_pos hk]
        rcases List.mem_cons.1 hc with h | h
        · rw [h]
          exact List.mem_append_left _ ((contains_iff keys _).1 hk)
        · exact ih keys n (fun x hx => hskip x (List.mem_cons_of_mem c0 hx))
            (fun x hx => htrim x (List.mem_cons_of_mem c0 hx)) c h hval
      · rw [if_neg hk]
        have he : deduplicationKey c0.date accountId c0.amount
            ((c0.description.map (fun s => jsTrim s)).getD "") =
            deduplicationKey c0.date accountId c0.amount
              (c0.description.getD "") := by
          rw [htrim c0 (List.mem_cons_self c0 cs)]
        rcases List.mem_cons.1 hc with h | h
        · simp only [List.map_cons]
          refine List.mem_append_right _ ?_
          rw [h]
          exact List.mem_cons.2 (Or.inl he.symm)
        · have hrec := ih (keys ++ [deduplicationKey c0.date accountId
              c0.amount (c0.description.getD "")]) (n + 1)
            (fun x hx => hskip x (List.mem_cons_of_mem c0 hx))
            (fun x hx => htrim x (List.mem_cons_of_mem c0 hx)) c h hval
          simp only [List.map_cons, List.mem_append, List.mem_cons,
            List.mem_singleton, List.append_assoc, List.singleton_append]
            at hrec ⊢
          rcases hrec with h1 | h1 | h1
          · exact Or.inl h1
          · exact Or.inr (Or.inl (h1.trans he.symm))
          · exact Or.inr (Or.inr h1)

lemma find?_map_of_id_preserved (p : Account → Bool) (f : Account → Account)
    (hpf : ∀ x, p (f x) = p x) (l : List Account) :
    (l.map f).find? p = (l.find? p).map f := by
  induction l with
  | nil => rfl
  | cons x xs ih =>
    show List.find? p (f x :: xs.map f) = _
    rcases hp : p x with _ | _
    · rw [List.find?_cons_of_neg _ (by rw [hpf]; simp [hp]),
        List.find?_cons_of_neg _ (by simp [hp])]
      exact ih
    · rw [List.find?_cons_of_pos _ (by rw [hpf]; exact hp),
        List.find?_cons_of_pos _ hp]
      rfl

lemma find?_clearReconciled (accs : List Account) (aid : String) :
    (clearReconciledForAccount accs aid).find? (fun a => a.id == aid) =
      (accs.find? (fun a => a.id == aid)).map (fun x =>
        if x.id = aid ∧ x.reconciled ≠ "" then { x with reconciled := "" }
        else x) := by
  unfold clearReconciledForAccount
  exact find?_map_of_id_preserved _ _ (fun x => by
    by_cases hc : x.id = aid ∧ x.reconciled ≠ ""
    · rw [if_pos hc]
    · rw [if_neg hc]) accs

lemma bulkImportTransactions_eq_ok_self (store : DataStore)
    (accountId : String) (batch : List BulkCandidate) (now : String)
    (account : Account)
    (hacc : store.accounts.find? (fun a => a.id == accountId) = some account)
    (hnil : bulkImportLoop store accountId account.reconciled now batch
      ((store.transactions.filter (fun t => t.accountId == accountId)).map
        (fun t => deduplicationKey t.date t.accountId t.amount t.description))
      (nextIdNum (store.transactions.map (fun t => t.id))) = []) :
    bulkImportTransactions store accountId batch now = Result.ok store := by
  simp [bulkImportTransactions, hacc, hnil]

/-- C8 (amended): for a resolvable target account, bulk import is
idempotent provided the batch triggers no reconciled-date skip on the
first run and every candidate's description is trim-stable (otherwise
the counterexample applies: the stored record's trimmed description
changes the deduplication key).  Moreover a batch whose import loop
yields nothing returns the identical aggregate. -/
theorem c8_bulkImport_idempotent (store : DataStore) (accountId : String)
    (batch : List BulkCandidate) (now1 now2 : String) (account : Account)
    (hacc : store.accounts.find? (fun a => a.id == accountId) = some account)
    (hnoskip : ∀ c ∈ batch,
      ¬(account.reconciled ≠ "" ∧
        jsStrLt c.date.data account.reconciled.data))
    (htrim : ∀ c ∈ batch,
      (c.description.map (fun s => jsTrim s)).getD "" =
        c.description.getD "") :
    (bulkImportLoop store accountId account.reconciled now1 batch
        ((store.transactions.filter (fun t => t.accountId == accountId)).map
          (fun t => deduplicationKey t.date t.accountId t.amount
            t.description))
        (nextIdNum (store.transactions.map (fun t => t.id))) = [] →
      bulkImportTransactions store accountId batch now1 = Result.ok store) ∧
    (∀ s1, bulkImportTransactions store accountId batch now1 = Result.ok s1 →
      bulkImportTransactions s1 accountId batch now2 = Result.ok s1) := by
  constructor
  · intro hnil
    exact bulkImportTransactions_eq_ok_self store accountId batch now1
      account hacc hnil
  · intro s1 hres1
    simp only [bulkImportTransactions, hacc] at hres1
    split at hres1
    · -- the first run imported nothing and returned the store itself
      rename_i hEmpty
      injection hres1 with h
      subst h
      refine bulkImportTransactions_eq_ok_self store accountId batch now2
        account hacc ?_
      exact bulkImportLoop_nil_now store accountId account.reconciled now1
        now2 batch _ _ (List.isEmpty_iff.1 hEmpty)
    · -- the first run imported newTransactions ≠ []
      injection hres1 with h
      subst h
      have hNEWacc : ∀ t ∈ bulkImportLoop store accountId account.reconciled
          now1 batch
          ((store.transactions.filter
            (fun t => t.accountId == accountId)).map
            (fun t => deduplicationKey t.date t.accountId t.amount
              t.description))
          (nextIdNum (store.transactions.map (fun t => t.id))),
          t.accountId = accountId :=
        fun t ht => bulkImportLoop_accountId store accountId
          account.reconciled now1 batch _ _ t ht
      have hNEWfilter : (bulkImportLoop store accountId account.reconciled
          now1 batch
          ((store.transactions.filter
            (fun t => t.accountId == accountId)).map
            (fun t => deduplicationKey t.date t.accountId t.amount
              t.description))
          (nextIdNum (store.transactions.map (fun t => t.id)))).filter
            (fun t => t.accountId == accountId) =
          bulkImportLoop store accountId account.reconciled now1 batch
            ((store.transactions.filter
              (fun t => t.accountId == accountId)).map
              (fun t => deduplicationKey t.date t.accountId t.amount
                t.description))
            (nextIdNum (store.transactions.map (fun t => t.id))) :=
        List.filter_eq_self.2 (fun t ht => by
          rw [beq_iff_eq]
          exact hNEWacc t ht)
      refine bulkImportTransactions_eq_ok_self _ accountId batch now2
        (if account.id = accountId ∧ account.reconciled ≠ "" then
          { account with reconciled := "" }
         else account) ?_ ?_
      · show (clearReconciledForAccount store.accounts accountId).find?
            (fun a => a.id == accountId) =
          some (if account.id = accountId ∧ account.reconciled ≠ "" then
            { account with reconciled := "" }
          else account)
        rw [find?_clearReconciled, hacc]
        rfl
      · refine bulkImportLoop_eq_nil _ accountId _ now2 batch _ _ ?_
        intro c hc hv
        show deduplicationKey c.date accountId c.amount
            (c.description.getD "") ∈
          ((store.transactions ++ bulkImportLoop store accountId
            account.reconciled now1 batch
            ((store.transactions.filter
              (fun t => t.accountId == accountId)).map
              (fun t => deduplicationKey t.date t.accountId t.amount
                t.description))
            (nextIdNum (store.transactions.map (fun t => t.id)))).filter
              (fun t => t.accountId == accountId)).map
            (fun t => deduplicationKey t.date t.accountId t.amount
              t.description)
        rw [List.filter_append, hNEWfilter, List.map_append]
        exact bulkImportLoop_covers store accountId account.reconciled now1
          batch _ _ hnoskip htrim c hc hv

/-- C8 witness: a concrete trim-stable batch imported into a store that
already holds its import is a no-op returning the same aggregate. -/
theorem c8_bulkImport_idempotent_witness :
    bulkImportTransactions
        ⟨[acct "a1" ""],
          [⟨"1", "expense", "a1", "2025-01-15", "", "x", "", "", -5, "",
            "import", ""⟩], []⟩ "a1"
        [⟨"expense", "2025-01-15", none, some "x", none, -5, none, none⟩]
        "" =
      Result.ok ⟨[acct "a1" ""],
        [⟨"1", "expense", "a1", "2025-01-15", "", "x", "", "", -5, "",
          "import", ""⟩], []⟩ :=
  (c8_bulkImport_idempotent ⟨[acct "a1" ""], [], []⟩ "a1"
      [⟨"expense", "2025-01-15", none, some "x", none, -5, none, none⟩]
      "" "" (acct "a1" "") (by decide) (by decide) (by decide)).2
    ⟨[acct "a1" ""],
      [⟨"1", "expense", "a1", "2025-01-15", "", "x", "", "", -5, "",
        "import", ""⟩], []⟩ (by decide)

/-- C9 witness: a concrete movement creation clears the target account's
previously-set `reconciled` date. -/
theorem c9_auto_clear_reconciled_witness :
    createTransaction ⟨[acct "a1" "2025-01-01"], [], []⟩
        ⟨"expense", "a1", "2025-01-15", none, none, none, -5, none, none⟩ "" =
      Result.ok ⟨[acct "a1" ""], [txn "1" "expense" "a1" "" (-5)], []⟩ ∧
    (acct "a1" "").reconciled = "" :=
  ⟨by decide,
   c9_auto_clear_reconciled.1 ⟨[acct "a1" "2025-01-01"], [], []⟩
     ⟨"expense", "a1", "2025-01-15", none, none, none, -5, none, none⟩ ""
     ⟨[acct "a1" ""], [txn "1" "expense" "a1" "" (-5)], []⟩ (by decide)
     (acct "a1" "") (by decide) rfl⟩

end PFS
